import Mathlib

/-!
# Bootstrap stub of a packaged Windows application (`Main.cpp`)

A shallow embedding of `Main.cpp`: the log rotation performed at process start,
the `LogWriter` / `CrashDialogWriter` / `ExitStatusExceptionHandler` classes, the
bootstrap sequence of `Main`, the module runner with its exit-code resolution, and
`format_traceback`.

* The file system is a map from paths to nodes; the `File::` and
  `Directory::` calls of the .NET base class library are functions on it.
* Everything `Main` does after the rotation is recorded as a list of events
  (log operations, capture toggles, runtime API calls); the answers of the
  embedded runtime and of the C runtime are read from an environment record.
-/

namespace Briefcase

/-! ## File system -/

/-- The `LOG_EXTENSION` define. -/
def LOG_EXTENSION : String := ".log"

/-- What a path of the file system holds. -/
inductive Node where
  | file (content : String)
  | directory
  deriving DecidableEq, Repr

/-- A file system: every path is absent, a file with its content, or a directory. -/
abbrev FileSystem := String → Option Node

/-- Managed exceptions raised by the host platform. -/
inductive HostException where
  | fileNotFound (path : String)
  | destinationExists (path : String)
  | unauthorizedAccess (path : String)
  | argumentException (what : String)
  | argumentNullException (what : String)
  | sehException (what : String)
  deriving DecidableEq, Repr

/-- The file system with path `p` rebound to `n`. -/
def FileSystem.set (fs : FileSystem) (p : String) (n : Option Node) : FileSystem :=
  fun q => if q = p then n else fs q

/-- The file system in which nothing exists. -/
def FileSystem.empty : FileSystem := fun _ => none

/-- `File::Exists(path)`: true exactly when the path holds a file (false for a directory). -/
def File.Exists (fs : FileSystem) (path : String) : Bool :=
  match fs path with
  | some (Node.file _) => true
  | _ => false

/-- `Directory::Exists(path)`. -/
def Directory.Exists (fs : FileSystem) (path : String) : Bool :=
  match fs path with
  | some Node.directory => true
  | _ => false

/-- `Directory::CreateDirectory(path)`: creates the directory unless it is already there;
throws when a file has that path. -/
def Directory.CreateDirectory (fs : FileSystem) (path : String) :
    Except HostException FileSystem :=
  match fs path with
  | some (Node.file _) => Except.error (HostException.destinationExists path)
  | _ => Except.ok (fs.set path (some Node.directory))

/-- `File::Delete(path)`: removes the file; no exception when nothing is there; throws when
the path is a directory. -/
def File.Delete (fs : FileSystem) (path : String) : Except HostException FileSystem :=
  match fs path with
  | some Node.directory => Except.error (HostException.unauthorizedAccess path)
  | _ => Except.ok (fs.set path none)

/-- `File::Move(source, dest)`: throws when the source is not a file and when anything
already has the destination path; otherwise the file is renamed, keeping its content. -/
def File.Move (fs : FileSystem) (source dest : String) : Except HostException FileSystem :=
  match fs source with
  | some (Node.file content) =>
    match fs dest with
    | some _ => Except.error (HostException.destinationExists dest)
    | none => Except.ok ((fs.set source none).set dest (some (Node.file content)))
  | _ => Except.error (HostException.fileNotFound source)

/-- `gcnew StreamWriter(filename)` followed by the writes of the process: the file is
created or truncated and ends up holding `written`; throws when the path is a directory. -/
def StreamWriter.create (fs : FileSystem) (filename : String) (written : String) :
    Except HostException FileSystem :=
  match fs filename with
  | some Node.directory => Except.error (HostException.unauthorizedAccess filename)
  | _ => Except.ok (fs.set filename (some (Node.file written)))

/-- Application metadata and special folders read at the start of `Main`. -/
structure AppInfo where
  LocalApplicationData : String
  CompanyName : String
  ProductName : String
  InternalName : String
  deriving DecidableEq, Repr

/-- Main.cpp line 139: the log folder. -/
def AppInfo.log_folder (a : AppInfo) : String :=
  a.LocalApplicationData ++ "\\" ++ a.CompanyName ++ "\\" ++ a.ProductName ++ "\\Logs"

/-- Main.cpp line 142: the path every log file name starts with. -/
def AppInfo.log_prefix (a : AppInfo) : String :=
  a.log_folder ++ "\\" ++ a.InternalName

/-- Main.cpp line 144: the active log file. -/
def AppInfo.current_log_name (a : AppInfo) : String :=
  a.log_prefix ++ LOG_EXTENSION

/-- Main.cpp lines 162-167: the loop `for (log_index = 8; log_index >= 2; log_index--)`,
entered with `log_index` as first argument. -/
def Main.shiftLogs ( log_prefix : String) : Nat → FileSystem → Except HostException FileSystem
  | 0, fs => pure fs
  | 1, fs => pure fs
  | k + 2, fs => do
    let log_index := k + 2
    let old_log_name := log_prefix ++ "-" ++ toString log_index ++ LOG_EXTENSION
    let fs ←
      (if File.Exists fs old_log_name then
        File.Move fs old_log_name ( log_prefix ++ "-" ++ toString (log_index + 1) ++ LOG_EXTENSION)
      else pure fs)
    Main.shiftLogs log_prefix (k + 1) fs

/-- Main.cpp lines 146-173: create the log folder, or rotate the logs in it. -/
def Main.rotateLogs (a : AppInfo) (fs : FileSystem) : Except HostException FileSystem :=
  if !Directory.Exists fs a.log_folder then
    Directory.CreateDirectory fs a.log_folder
  else do
    let evicted_log := a.log_prefix ++ "-9" ++ LOG_EXTENSION
    let fs ← (if File.Exists fs evicted_log then File.Delete fs evicted_log else pure fs)
    let fs ← Main.shiftLogs a.log_prefix 8 fs
    if File.Exists fs a.current_log_name then
      File.Move fs a.current_log_name (a.log_prefix ++ "-2" ++ LOG_EXTENSION)
    else pure fs

/-- One process run as far as the log folder is concerned: the rotation block, then
`gcnew LogWriter(current_log_name)` (Main.cpp line 175), the file holding `written` when the
process is over. -/
def Main.logRun (a : AppInfo) (fs : FileSystem) (written : String) :
    Except HostException FileSystem := do
  let fs ← Main.rotateLogs a fs
  StreamWriter.create fs a.current_log_name written

/-- A sequence of process runs, one per entry of `written`, first run first. -/
def Main.logRuns (a : AppInfo) : FileSystem → List String → Except HostException FileSystem
  | fs, [] => pure fs
  | fs, w :: ws => do
    let fs ← Main.logRun a fs w
    Main.logRuns a fs ws

/-- The history file of index `k`, as the rotation names it. -/
def AppInfo.history_log_name (a : AppInfo) (k : Nat) : String :=
  a.log_prefix ++ "-" ++ toString k ++ LOG_EXTENSION

/-- A chain of conditional moves: each source, if it is a file, is moved onto the path
before it in the chain. The rotation is one such chain (see the lemma relating them). -/
def moveChain : String → List String → FileSystem → Except HostException FileSystem
  | _, [], fs => pure fs
  | dst, src :: rest, fs => do
    let fs ← (if File.Exists fs src then File.Move fs src dst else pure fs)
    moveChain src rest fs

/-- The nine paths the rotation touches, the evicted one first, the active log last. -/
def AppInfo.log_chain (a : AppInfo) : List String :=
  [a.history_log_name 9, a.history_log_name 8, a.history_log_name 7, a.history_log_name 6,
   a.history_log_name 5, a.history_log_name 4, a.history_log_name 3, a.history_log_name 2,
   a.current_log_name]

/-- A sample installation used in examples. -/
def demoApp : AppInfo :=
  { LocalApplicationData := "C:\\L", CompanyName := "Co", ProductName := "Demo",
    InternalName := "demo" }

/-- A sample log folder holding the active log and the history files 2, 3 and 5. -/
def demoFS : FileSystem := fun p =>
  if p = "C:\\L\\Co\\Demo\\Logs" then some Node.directory
  else if p = "C:\\L\\Co\\Demo\\Logs\\demo.log" then some (Node.file "active")
  else if p = "C:\\L\\Co\\Demo\\Logs\\demo-2.log" then some (Node.file "two")
  else if p = "C:\\L\\Co\\Demo\\Logs\\demo-3.log" then some (Node.file "three")
  else if p = "C:\\L\\Co\\Demo\\Logs\\demo-5.log" then some (Node.file "five")
  else none

/-- The state of the log folder after at least one run: `done` lists what the runs so far
wrote, the latest first. The folder exists, holds nothing but log files, the active log is
the latest run's, and history index `k` holds the log of the run `k - 1` runs back. -/
def LogInv (a : AppInfo) (fs : FileSystem) (done : List String) : Prop :=
  fs a.log_folder = some Node.directory ∧
  (∀ name, fs (a.log_folder ++ "\\" ++ name) ≠ none →
    a.log_folder ++ "\\" ++ name ∈ a.log_chain) ∧
  fs a.current_log_name = (done[0]?).map Node.file ∧
  done ≠ [] ∧
  ∀ k, 2 ≤ k → k ≤ 9 → fs (a.history_log_name k) = (done[k - 1]?).map Node.file

/-! ## The embedded runtime and the C runtime, as seen from `Main.cpp` -/

/-- The kind of a `PyStatus` (`Python.h`). -/
inductive PyStatusType where
  | OK
  | ERROR
  | EXIT
  deriving DecidableEq, Repr

/-- The `PyStatus` structure of `Python.h`: the outcome of a fallible runtime call. -/
structure PyStatus where
  kind : PyStatusType
  func : String
  err_msg : String
  exitcode : Int
  deriving DecidableEq, Repr

/-- `PyStatus_Exception(status)`: the status is an error or an exit. -/
def PyStatus_Exception (status : PyStatus) : Bool :=
  status.kind != PyStatusType.OK

/-- A successful status. -/
def PyStatus.ok : PyStatus :=
  { kind := PyStatusType.OK, func := "", err_msg := "", exitcode := 0 }

/-- The value of an attribute read from an exception object: an integer, an object that is
no integer but whose `__index__` method returns the integer `v`, or any other object (`None`,
a string, ...). -/
inductive PyObject where
  | int (v : Int)
  | index (v : Int)
  | other
  deriving DecidableEq, Repr

/-- `PyLong_AsLong`: the value of an integer object, or of the integer the `__index__` method
of the object returns, when it fits a C `long` (32 bits on this platform); `-1` (with an error
set in the runtime) for an integer out of range and for an object that cannot be converted. -/
def PyLong_AsLong (o : PyObject) : Int :=
  match o with
  | PyObject.int v => if -2147483648 ≤ v ∧ v ≤ 2147483647 then v else -1
  | PyObject.index v => if -2147483648 ≤ v ∧ v ≤ 2147483647 then v else -1
  | PyObject.other => -1

/-- A code point of a string of the runtime: a character, or a lone surrogate (which a string
of the runtime may hold and UTF-8 cannot encode). -/
inductive PyChar where
  | char (c : Char)
  | surrogate (code : Nat)
  deriving DecidableEq, Repr

/-- A string object of the runtime. -/
abbrev PyUnicode := List PyChar

/-- The string object holding the text `s`. -/
def PyUnicode.ofString (s : String) : PyUnicode := s.data.map PyChar.char

/-- `PyUnicode_Join(PyUnicode_FromString(""), list)`: the strings of the list put together. -/
def PyUnicode_Join (list : List PyUnicode) : PyUnicode := list.flatten

/-- `PyUnicode_AsUTF8AndSize`: the characters of the string in UTF-8; `none` is the `NULL` the
call returns when the string holds a lone surrogate. -/
def PyUnicode_AsUTF8AndSize : PyUnicode → Option (List Char)
  | [] => some []
  | PyChar.char c :: rest => (PyUnicode_AsUTF8AndSize rest).map (fun cs => c :: cs)
  | PyChar.surrogate _ :: _ => none

/-- A traceback object of the runtime: `None`, or a frame with the rest of the chain. -/
inductive TbObject where
  | None
  | tb (frame : String) (tb_next : TbObject)
  deriving DecidableEq, Repr

/-- `PyObject_GetAttrString(traceback, "tb_next")`: the next traceback of a traceback object
(possibly `None`); `NULL` when the object is `None`, which has no such attribute. -/
def TbObject.get_tb_next (traceback : TbObject) : Option TbObject :=
  match traceback with
  | TbObject.tb _ next => some next
  | TbObject.None => none

/-- The bootstrap steps of `Main`, in source order. -/
inductive Step where
  | preInitialize
  | setHome
  | setRunModule
  | readConfig
  | appendZip
  | appendHome
  | appendAppPackages
  | appendApp
  | setArgv
  | initRuntime
  deriving DecidableEq, Repr

/-- What the C runtime answers inside one `StartStdErrCapture`. -/
structure StartResult where
  freopen_err : Int
  file_is_null : Bool
  fseek_err : Int
  deriving DecidableEq, Repr

/-- What `PyObject_Call` on the module entry point comes back with. -/
inductive CallResult where
  | returned
  | raised
  | hostException (e : HostException)
  deriving DecidableEq, Repr

/-- Everything `Main` reads from its surroundings after the rotation: application metadata,
the environment, and the answers of the C runtime and of the embedded runtime. -/
structure Env where
  app : AppInfo
  ExecutablePath : String
  StartupPath : String
  Now : String
  BRIEFCASE_MAIN_MODULE : Option String
  /-- The status each bootstrap call returns. -/
  status : Step → PyStatus
  /-- The C runtime inside the `StartStdErrCapture` of each step. -/
  start_capture : Step → StartResult
  /-- The result of `_dup2` inside the `StopStdErrCapture` of each step. -/
  stop_dup2_err : Step → Int
  /-- The C runtime inside the `StartStdErrCapture` of the status handler. -/
  handler_capture : StartResult
  /-- Whether `PyImport_ImportModule("runpy")` is non-null. -/
  runpy_module : Bool
  /-- Whether the attribute `_run_module_as_main` is non-null. -/
  module_attr : Bool
  /-- Whether `PyUnicode_FromWideChar` of the module name is non-null. -/
  app_module : Bool
  /-- Whether `Py_BuildValue` is non-null. -/
  method_args : Bool
  /-- The outcome of the module call. -/
  result : CallResult
  /-- The traceback after `PyErr_Fetch` and `PyErr_NormalizeException`; `none` is `NULL`. -/
  exc_traceback : Option TbObject
  /-- `PyErr_GivenExceptionMatches(exc_value, PyExc_SystemExit)`. -/
  is_SystemExit : Bool
  /-- `PyObject_GetAttrString(exc_value, "code")`; `none` is `NULL`. -/
  systemExit_code : Option PyObject
  /-- Whether `PyImport_ImportModule("traceback")` is non-null. -/
  traceback_module : Bool
  /-- Whether `format_exception` is found and callable. -/
  format_exception_callable : Bool
  /-- The list of strings `traceback.format_exception` returns for a traceback; `none` is
  `NULL`. -/
  format_exception_list : TbObject → Option (List PyUnicode)

/-- Calls into the embedded runtime and the C runtime that `Main` makes. -/
inductive Call where
  | Py_PreInitialize (utf8_mode isolated : Int)
  | PyConfig_InitIsolatedConfig
  | PyConfig_SetString_home (value : String)
  | PyConfig_SetString_run_module (value : String)
  | PyConfig_Read
  | PyWideStringList_Append (item : String)
  | PyConfig_SetArgv (argc : Nat) (argv : List (Option String))
  | Py_InitializeFromConfig (buffered_stdio write_bytecode module_search_paths_set : Int)
  | PyConfig_Clear
  | PyImport_ImportModule (name : String)
  | PyObject_GetAttrString (attr : String)
  | PyUnicode_FromWideChar (str : String)
  | Py_BuildValue
  | PyObject_Call
  | PyErr_Fetch
  | PyErr_NormalizeException
  | PyErr_Restore
  | Py_Finalize
  | fflush_stdout
  | fflush_stderr
  deriving DecidableEq, Repr

/-- What `Main` does, in order. -/
inductive Event where
  | Write (m : String)
  | WriteLine (m : String)
  | Flush
  | StartStdErrCapture
  | StopStdErrCapture
  | ConsoleWrite (m : String)
  | call (c : Call)
  deriving DecidableEq, Repr

/-- How a computation ends before its last statement. -/
inductive Stop where
  | exit (code : Int)
  | Py_ExitStatusException (status : PyStatus)
  | exception (e : HostException)
  deriving DecidableEq, Repr

/-- Equality of outcomes is decidable. -/
instance instDecidableEqExcept {ε α : Type} [DecidableEq ε] [DecidableEq α] :
    DecidableEq (Except ε α) := fun x y =>
  match x, y with
  | Except.ok a, Except.ok b =>
    if h : a = b then isTrue (by rw [h]) else isFalse (fun h2 => h (Except.ok.inj h2))
  | Except.error a, Except.error b =>
    if h : a = b then isTrue (by rw [h]) else isFalse (fun h2 => h (Except.error.inj h2))
  | Except.ok _, Except.error _ => isFalse (fun h => Except.noConfusion h)
  | Except.error _, Except.ok _ => isFalse (fun h => Except.noConfusion h)

/-- A computation of the stub: the events it performed and either its value or the way it
ended the process (or raised a managed exception). -/
structure Run (α : Type) where
  trace : List Event
  result : Except Stop α

/-- Sequencing: the second computation runs only when the first returned. -/
def Run.bind {α β : Type} (m : Run α) (f : α → Run β) : Run β :=
  match m.result with
  | Except.error e => { trace := m.trace, result := Except.error e }
  | Except.ok a => { trace := m.trace ++ (f a).trace, result := (f a).result }

instance : Monad Run where
  pure a := { trace := [], result := Except.ok a }
  bind := Run.bind

/-- Perform one event. -/
def emit (e : Event) : Run Unit :=
  { trace := [e], result := Except.ok () }

/-- The C `exit(code)`: the process ends here. -/
def exit {α : Type} (code : Int) : Run α :=
  { trace := [], result := Except.error (Stop.exit code) }

/-- `Py_ExitStatusException(status)` on an error or exit status: the runtime ends the process. -/
def Py_ExitStatusException {α : Type} (status : PyStatus) : Run α :=
  { trace := [], result := Except.error (Stop.Py_ExitStatusException status) }

/-- Raise a managed exception. -/
def Run.throw {α : Type} (e : HostException) : Run α :=
  { trace := [], result := Except.error (Stop.exception e) }

/-- A `try` block with a `catch (Exception^)` handler: managed exceptions are caught; a process
exit is not. -/
def Run.tryCatch {α : Type} (body : Run α) (handler : HostException → Run α) : Run α :=
  match body.result with
  | Except.error (Stop.exception e) =>
    { trace := body.trace ++ (handler e).trace, result := (handler e).result }
  | _ => body

/-- `Console::Write`. -/
def Console.Write (m : String) : Run Unit := emit (Event.ConsoleWrite m)

/-- `exception->ToString()`, reduced to the type of the exception and what it names. -/
def HostException.ToString (e : HostException) : String :=
  match e with
  | HostException.fileNotFound path => "System.IO.FileNotFoundException: " ++ path
  | HostException.destinationExists path => "System.IO.IOException: " ++ path
  | HostException.unauthorizedAccess path => "System.UnauthorizedAccessException: " ++ path
  | HostException.argumentException what => "System.ArgumentException: " ++ what
  | HostException.argumentNullException what => "System.ArgumentNullException: " ++ what
  | HostException.sehException what => "System.Runtime.InteropServices.SEHException: " ++ what

/-- `wstr`: the characters of a managed string. -/
def wstr (str : String) : String := str

/-! ## `LogWriter`, `CrashDialogWriter`, `ExitStatusExceptionHandler` -/

/-- The `LogWriter` class. -/
structure LogWriter where
  filename : String
  deriving DecidableEq, Repr

/-- `LogWriter::Write`. -/
def LogWriter.Write (_log : LogWriter) (m : String) : Run Unit := emit (Event.Write m)

/-- `LogWriter::WriteLine`. -/
def LogWriter.WriteLine (_log : LogWriter) (m : String) : Run Unit := emit (Event.WriteLine m)

/-- `LogWriter::Flush`. -/
def LogWriter.Flush (_log : LogWriter) : Run Unit := emit Event.Flush

/-- `LogWriter::StartStdErrCapture` (Main.cpp lines 47-71): close the writer, save stderr and
reopen the log file as stderr; every failure is reported on the console and ends the process
with code -1. -/
def LogWriter.StartStdErrCapture (_log : LogWriter) (r : StartResult) : Run Unit := do
  emit Event.StartStdErrCapture
  (if r.freopen_err ≠ 0 then do
    Console.Write ("stderr redirect failed with err " ++ toString r.freopen_err ++ "\n")
    exit (-1)
  else if r.file_is_null then do
    Console.Write "Python system log file handle is nullptr\n"
    exit (-1)
  else pure ())
  (if r.fseek_err ≠ 0 then do
    Console.Write "Failed to seek to end of file!\n"
    exit (-1)
  else pure ())

/-- `LogWriter::StopStdErrCapture` (Main.cpp lines 74-84): restore stderr and reopen the
writer; a failure is reported on the console and ends the process with code -1. -/
def LogWriter.StopStdErrCapture (_log : LogWriter) (dup2_err : Int) : Run Unit := do
  emit Event.StopStdErrCapture
  (if dup2_err ≠ 0 then do
    Console.Write "Error resetting stderr!"
    exit (-1)
  else pure ())

/-- The `CrashDialogWriter` class. -/
structure CrashDialogWriter where
  log : LogWriter
  deriving DecidableEq, Repr

/-- `CrashDialogWriter::Write` (Main.cpp lines 94-98). -/
def CrashDialogWriter.Write (crash_dialog : CrashDialogWriter) (error_message : String) :
    Run Unit := do
  crash_dialog.log.Write error_message
  Console.Write error_message
  crash_dialog.log.Flush

/-- The `ExitStatusExceptionHandler` class (the configuration it points to is the only one). -/
structure ExitStatusExceptionHandler where
  crash_dialog : CrashDialogWriter
  log_filename : String
  deriving DecidableEq, Repr

/-- `ExitStatusExceptionHandler::Handle` (Main.cpp lines 118-124). -/
def ExitStatusExceptionHandler.Handle {α : Type} (h : ExitStatusExceptionHandler)
    (r : StartResult) (error_message : String) (status : PyStatus) : Run α := do
  h.crash_dialog.Write (error_message ++ "\n\t" ++ status.func ++ ": " ++ status.err_msg ++ "\n")
  h.crash_dialog.Write ("\tSee " ++ h.log_filename ++ "\n")
  h.crash_dialog.log.StartStdErrCapture r
  emit (Event.call Call.PyConfig_Clear)
  Py_ExitStatusException status

/-! ## `format_traceback` -/

/-- The scan behind `String::Replace`: left to right, every occurrence of `old` that starts
where no earlier occurrence is still being skipped is replaced by `new`; `skip` counts the
characters of the current occurrence still to be passed over. -/
def replaceFrom (old new : List Char) : Nat → List Char → List Char
  | _, [] => []
  | skip + 1, _ :: cs => replaceFrom old new skip cs
  | 0, c :: cs =>
    if old.isPrefixOf (c :: cs) then new ++ replaceFrom old new (old.length - 1) cs
    else c :: replaceFrom old new 0 cs

/-- `String::Replace(oldValue, newValue)` of the .NET base class library: an ordinal search
replacing all occurrences; throws `ArgumentException` when `oldValue` is empty. -/
def String.Replace (s oldValue newValue : String) : Except HostException String :=
  if oldValue = "" then Except.error (HostException.argumentException "oldValue")
  else Except.ok (String.mk (replaceFrom oldValue.data newValue.data 0 s.data))

/-- `UTF8Encoding::GetString(Byte*, int)` of the .NET base class library on the pointer
`PyUnicode_AsUTF8AndSize` returned: the text of the bytes; throws `ArgumentNullException` when
the pointer is `NULL`. -/
def UTF8Encoding.GetString (bytes : Option (List Char)) : Except HostException String :=
  match bytes with
  | none => Except.error (HostException.argumentNullException "bytes")
  | some cs => Except.ok (String.mk cs)

/-- Run a call of the base class library: its value, or the managed exception it throws. -/
def Run.ofExcept {α : Type} (r : Except HostException α) : Run α :=
  match r with
  | Except.ok a => pure a
  | Except.error e => Run.throw e

/-- `format_traceback` (Main.cpp lines 429-470); the exception type and value only reach the
runtime's formatter, whose answer is read from the environment. The pointer returned by
`PyUnicode_AsUTF8AndSize` goes to `GetString` unchecked (lines 463-466). -/
def format_traceback (env : Env) (traceback : TbObject) : Run String := do
  let traceback := (List.range 2).foldl
    (fun traceback _ =>
      match traceback.get_tb_next with
      | some inner_traceback => inner_traceback
      | none => traceback)
    traceback
  emit (Event.call (Call.PyImport_ImportModule "traceback"))
  if !env.traceback_module then
    pure "Could not import traceback"
  else do
    emit (Event.call (Call.PyObject_GetAttrString "format_exception"))
    if env.format_exception_callable then
      match env.format_exception_list traceback with
      | none => pure "Could not format traceback."
      | some traceback_list => do
        let traceback_unicode := PyUnicode_Join traceback_list
        let bytes := PyUnicode_AsUTF8AndSize traceback_unicode
        let traceback_str ← Run.ofExcept (UTF8Encoding.GetString bytes)
        Run.ofExcept (String.Replace traceback_str env.StartupPath "")
    else
      pure "Could not find \x27format_exception\x27 in \x27traceback\x27 module."

/-! ## `Main` -/

/-- Main.cpp lines 297-301: the argument vector, allocated with `args->Length + 1` slots (not
yet assigned: `none`), slot 0 set to the executable path and slot `i + 1` to `args[i]`. -/
def Main.buildArgv (ExecutablePath : String) (args : List String) : List (Option String) :=
  let argv : List (Option String) := List.replicate (args.length + 1) none
  let argv := argv.set 0 (some (wstr ExecutablePath))
  (List.range args.length).foldl
    (fun argv i => argv.set (i + 1) (some (wstr (args.getD i ""))))
    argv

/-- The separator line written before and after the module call. -/
def separator : String :=
  "---------------------------------------------------------------------------\n"

/-- `PyObject_Call(module_attr, method_args, NULL)`: true for a non-null result; a native
fault surfaces as a managed exception. -/
def PyObject_Call (env : Env) : Run Bool := do
  emit (Event.call Call.PyObject_Call)
  match env.result with
  | CallResult.returned => pure true
  | CallResult.raised => pure false
  | CallResult.hostException e => Run.throw e

/-- Main.cpp lines 317-413: the `try` block running the module, its `catch`, and the
shutdown. -/
def Main.run (env : Env) (log : LogWriter) (crash_dialog : CrashDialogWriter)
    (app_module_name app_module_str : String) : Run Int := do
  let ret ← Run.tryCatch
    (do
      log.WriteLine ("Running app module: " ++ app_module_name)
      emit (Event.call (Call.PyImport_ImportModule "runpy"))
      (if !env.runpy_module then do
        crash_dialog.Write "Could not import runpy module"
        exit (-2)
      else pure ())
      emit (Event.call (Call.PyObject_GetAttrString "_run_module_as_main"))
      (if !env.module_attr then do
        crash_dialog.Write "Could not access runpy._run_module_as_main"
        exit (-3)
      else pure ())
      emit (Event.call (Call.PyUnicode_FromWideChar app_module_str))
      (if !env.app_module then do
        crash_dialog.Write "Could not convert module name to unicode"
        exit (-3)
      else pure ())
      emit (Event.call Call.Py_BuildValue)
      (if !env.method_args then do
        crash_dialog.Write "Could not create arguments for runpy._run_module_as_main"
        exit (-4)
      else pure ())
      log.Write separator
      log.Flush
      emit (Event.call Call.fflush_stdout)
      emit (Event.call Call.fflush_stderr)
      let result ← PyObject_Call env
      log.Write separator
      log.Flush
      emit (Event.call Call.fflush_stdout)
      emit (Event.call Call.fflush_stderr)
      if !result then do
        emit (Event.call Call.PyErr_Fetch)
        emit (Event.call Call.PyErr_NormalizeException)
        match env.exc_traceback with
        | none => do
          crash_dialog.Write "Could not retrieve traceback"
          exit (-5)
        | some exc_traceback => do
          let ret : Int ←
            (if env.is_SystemExit then do
              emit (Event.call (Call.PyObject_GetAttrString "code"))
              match env.systemExit_code with
              | none => do
                crash_dialog.Write "Could not determine exit code, setting to -10\n"
                pure (-10)
              | some systemExit_code => pure (PyLong_AsLong systemExit_code)
            else pure (-6))
          log.Write ("Application will quit with exit code " ++ toString ret ++ "\n")
          if ret ≠ 0 then do
            let formatted ← format_traceback env exc_traceback
            crash_dialog.Write formatted
            emit (Event.call Call.PyErr_Restore)
            exit ret
          else pure ret
      else pure 0)
    (fun exception => do
      crash_dialog.Write ("Python runtime error: " ++ exception.ToString)
      pure (-7))
  emit (Event.call Call.Py_Finalize)
  pure ret

/-- Main.cpp lines 175-413: `Main` once the rotation block is over. -/
def Main (env : Env) (args : List String) : Run Int := do
  let version_info := env.app
  let current_log_name := version_info.current_log_name
  let log : LogWriter := LogWriter.mk current_log_name
  let crash_dialog : CrashDialogWriter := CrashDialogWriter.mk log
  log.WriteLine ("Log started: " ++ env.Now)
  log.WriteLine "PreInitializing Python runtime..."
  log.StartStdErrCapture (env.start_capture Step.preInitialize)
  emit (Event.call (Call.Py_PreInitialize 1 1))
  let status := env.status Step.preInitialize
  log.StopStdErrCapture (env.stop_dup2_err Step.preInitialize)
  (if PyStatus_Exception status then do
    crash_dialog.Write "Unable to pre-initialize Python runtime\n"
    crash_dialog.Write ("See " ++ current_log_name ++ "\n")
    Py_ExitStatusException status
  else pure ())
  emit (Event.call Call.PyConfig_InitIsolatedConfig)
  let py_exit_status : ExitStatusExceptionHandler :=
    ExitStatusExceptionHandler.mk crash_dialog current_log_name
  let python_home := env.StartupPath
  log.WriteLine ("PythonHome: " ++ python_home)
  log.StartStdErrCapture (env.start_capture Step.setHome)
  emit (Event.call (Call.PyConfig_SetString_home (wstr python_home)))
  let status := env.status Step.setHome
  log.StopStdErrCapture (env.stop_dup2_err Step.setHome)
  (if PyStatus_Exception status then
    py_exit_status.Handle env.handler_capture "Unable to set PYTHONHOME:" status
  else pure ())
  let app_module_name :=
    match env.BRIEFCASE_MAIN_MODULE with
    | some app_module_str => app_module_str
    | none => version_info.InternalName
  let app_module_str := wstr app_module_name
  log.StartStdErrCapture (env.start_capture Step.setRunModule)
  emit (Event.call (Call.PyConfig_SetString_run_module app_module_str))
  let status := env.status Step.setRunModule
  log.StopStdErrCapture (env.stop_dup2_err Step.setRunModule)
  (if PyStatus_Exception status then
    py_exit_status.Handle env.handler_capture "Unable to set app module name:" status
  else pure ())
  log.StartStdErrCapture (env.start_capture Step.readConfig)
  emit (Event.call Call.PyConfig_Read)
  let status := env.status Step.readConfig
  log.StopStdErrCapture (env.stop_dup2_err Step.readConfig)
  (if PyStatus_Exception status then
    py_exit_status.Handle env.handler_capture "Unable to read site config:" status
  else pure ())
  log.WriteLine "PYTHONPATH:"
  let path := python_home ++ "\\python312.zip"
  log.WriteLine ("- " ++ path)
  log.StartStdErrCapture (env.start_capture Step.appendZip)
  emit (Event.call (Call.PyWideStringList_Append (wstr path)))
  let status := env.status Step.appendZip
  log.StopStdErrCapture (env.stop_dup2_err Step.appendZip)
  (if PyStatus_Exception status then
    py_exit_status.Handle env.handler_capture "Unable to set .zip form of stdlib path:" status
  else pure ())
  log.WriteLine ("- " ++ python_home)
  log.StartStdErrCapture (env.start_capture Step.appendHome)
  emit (Event.call (Call.PyWideStringList_Append (wstr python_home)))
  let status := env.status Step.appendHome
  log.StopStdErrCapture (env.stop_dup2_err Step.appendHome)
  (if PyStatus_Exception status then
    py_exit_status.Handle env.handler_capture "Unable to set unpacked form of stdlib path:" status
  else pure ())
  let path := env.StartupPath ++ "\\app_packages"
  log.WriteLine ("- " ++ path)
  log.StartStdErrCapture (env.start_capture Step.appendAppPackages)
  emit (Event.call (Call.PyWideStringList_Append (wstr path)))
  let status := env.status Step.appendAppPackages
  log.StopStdErrCapture (env.stop_dup2_err Step.appendAppPackages)
  (if PyStatus_Exception status then
    py_exit_status.Handle env.handler_capture "Unable to set app packages path:" status
  else pure ())
  let path := env.StartupPath ++ "\\app"
  log.WriteLine ("- " ++ path)
  log.StartStdErrCapture (env.start_capture Step.appendApp)
  emit (Event.call (Call.PyWideStringList_Append (wstr path)))
  let status := env.status Step.appendApp
  log.StopStdErrCapture (env.stop_dup2_err Step.appendApp)
  (if PyStatus_Exception status then
    py_exit_status.Handle env.handler_capture "Unable to set app path:" status
  else pure ())
  log.WriteLine "Configure argc/argv..."
  let argv := Main.buildArgv env.ExecutablePath args
  log.StartStdErrCapture (env.start_capture Step.setArgv)
  emit (Event.call (Call.PyConfig_SetArgv (args.length + 1) argv))
  let status := env.status Step.setArgv
  log.StopStdErrCapture (env.stop_dup2_err Step.setArgv)
  (if PyStatus_Exception status then
    py_exit_status.Handle env.handler_capture "Unable to configure argc/argv:" status
  else pure ())
  log.WriteLine "Initializing Python runtime..."
  log.StartStdErrCapture (env.start_capture Step.initRuntime)
  emit (Event.call (Call.Py_InitializeFromConfig 0 0 1))
  let status := env.status Step.initRuntime
  log.StopStdErrCapture (env.stop_dup2_err Step.initRuntime)
  (if PyStatus_Exception status then
    py_exit_status.Handle env.handler_capture "Unable to initialize Python interpreter:" status
  else pure ())
  Main.run env log crash_dialog app_module_name app_module_str

/-! ## Properties of event sequences -/

/-- A normal log operation: `Write`, `WriteLine` or `Flush` of the `LogWriter`. -/
def Event.isLogOp : Event → Bool
  | Event.Write _ => true
  | Event.WriteLine _ => true
  | Event.Flush => true
  | _ => false

/-- Whether a capture is active after the events `t`, given whether one was active before:
`StartStdErrCapture` activates, `StopStdErrCapture` deactivates. -/
def captureActive : Bool → List Event → Bool
  | active, [] => active
  | _, Event.StartStdErrCapture :: es => captureActive true es
  | _, Event.StopStdErrCapture :: es => captureActive false es
  | active, _ :: es => captureActive active es

/-- Checks that no normal log operation happens while a capture is active. -/
def logsOutsideCapture : Bool → List Event → Bool
  | _, [] => true
  | _, Event.StartStdErrCapture :: es => logsOutsideCapture true es
  | _, Event.StopStdErrCapture :: es => logsOutsideCapture false es
  | active, e :: es => (!(e.isLogOp && active)) && logsOutsideCapture active es

/-- Checks that captures alternate: a start only when none is active, a stop only when one
is. -/
def capturesAlternate : Bool → List Event → Bool
  | _, [] => true
  | active, Event.StartStdErrCapture :: es => !active && capturesAlternate true es
  | active, Event.StopStdErrCapture :: es => active && capturesAlternate false es
  | active, _ :: es => capturesAlternate active es

/-- Events the module runner may perform: no capture toggles and no configuration calls. -/
def Event.isRunnerEvent : Event → Bool
  | Event.StartStdErrCapture => false
  | Event.StopStdErrCapture => false
  | Event.call (Call.PyWideStringList_Append _) => false
  | Event.call (Call.PyConfig_SetArgv _ _) => false
  | Event.call Call.PyConfig_Clear => false
  | _ => true

/-- The items appended to the module search path list, in order. -/
def searchPathAppends : List Event → List String
  | [] => []
  | Event.call (Call.PyWideStringList_Append item) :: es => item :: searchPathAppends es
  | _ :: es => searchPathAppends es

/-- The argument vectors handed to `PyConfig_SetArgv`, in order. -/
def argvCalls : List Event → List (Nat × List (Option String))
  | [] => []
  | Event.call (Call.PyConfig_SetArgv argc argv) :: es => (argc, argv) :: argvCalls es
  | _ :: es => argvCalls es

/-- Every capture toggle of the run succeeds: the C runtime reports no error inside any
`StartStdErrCapture` or `StopStdErrCapture`. -/
def Env.capturesSucceed (env : Env) : Prop :=
  (∀ s, (env.start_capture s).freopen_err = 0) ∧
  (∀ s, (env.start_capture s).file_is_null = false) ∧
  (∀ s, (env.start_capture s).fseek_err = 0) ∧
  (∀ s, env.stop_dup2_err s = 0) ∧
  env.handler_capture.freopen_err = 0 ∧
  env.handler_capture.file_is_null = false ∧
  env.handler_capture.fseek_err = 0

/-- Whether the run ends in `ExitStatusExceptionHandler::Handle`: pre-initialization succeeds
and a later bootstrap call returns an error or exit status. -/
def Env.handlerReached (env : Env) : Bool :=
  !PyStatus_Exception (env.status Step.preInitialize) &&
  (PyStatus_Exception (env.status Step.setHome) ||
   PyStatus_Exception (env.status Step.setRunModule) ||
   PyStatus_Exception (env.status Step.readConfig) ||
   PyStatus_Exception (env.status Step.appendZip) ||
   PyStatus_Exception (env.status Step.appendHome) ||
   PyStatus_Exception (env.status Step.appendAppPackages) ||
   PyStatus_Exception (env.status Step.appendApp) ||
   PyStatus_Exception (env.status Step.setArgv) ||
   PyStatus_Exception (env.status Step.initRuntime))

/-- Every bootstrap call of the run returns a successful status. -/
def Env.bootstrapSucceeds (env : Env) : Prop :=
  ∀ s, PyStatus_Exception (env.status s) = false

/-- The position of a bootstrap step in the sequence. -/
def Step.index : Step → Nat
  | Step.preInitialize => 0
  | Step.setHome => 1
  | Step.setRunModule => 2
  | Step.readConfig => 3
  | Step.appendZip => 4
  | Step.appendHome => 5
  | Step.appendAppPackages => 6
  | Step.appendApp => 7
  | Step.setArgv => 8
  | Step.initRuntime => 9

/-- The label `Main` reports when a bootstrap step fails. -/
def Step.label : Step → String
  | Step.preInitialize => "Unable to pre-initialize Python runtime\n"
  | Step.setHome => "Unable to set PYTHONHOME:"
  | Step.setRunModule => "Unable to set app module name:"
  | Step.readConfig => "Unable to read site config:"
  | Step.appendZip => "Unable to set .zip form of stdlib path:"
  | Step.appendHome => "Unable to set unpacked form of stdlib path:"
  | Step.appendAppPackages => "Unable to set app packages path:"
  | Step.appendApp => "Unable to set app path:"
  | Step.setArgv => "Unable to configure argc/argv:"
  | Step.initRuntime => "Unable to initialize Python interpreter:"

/-- The runtime call of a bootstrap step, with the arguments `Main` passes. -/
def Env.stepCall (env : Env) (args : List String) : Step → Call
  | Step.preInitialize => Call.Py_PreInitialize 1 1
  | Step.setHome => Call.PyConfig_SetString_home env.StartupPath
  | Step.setRunModule =>
    Call.PyConfig_SetString_run_module
      (match env.BRIEFCASE_MAIN_MODULE with
       | some app_module_str => app_module_str
       | none => env.app.InternalName)
  | Step.readConfig => Call.PyConfig_Read
  | Step.appendZip => Call.PyWideStringList_Append (env.StartupPath ++ "\\python312.zip")
  | Step.appendHome => Call.PyWideStringList_Append env.StartupPath
  | Step.appendAppPackages => Call.PyWideStringList_Append (env.StartupPath ++ "\\app_packages")
  | Step.appendApp => Call.PyWideStringList_Append (env.StartupPath ++ "\\app")
  | Step.setArgv =>
    Call.PyConfig_SetArgv (args.length + 1) ((env.ExecutablePath :: args).map some)
  | Step.initRuntime => Call.Py_InitializeFromConfig 0 0 1

/-- The capture bracket of a bootstrap step: start the capture, call the runtime, stop. -/
def stepBracket (c : Call) : List Event :=
  [Event.StartStdErrCapture, Event.call c, Event.StopStdErrCapture]

/-- One report through the crash reporter: log, console, flush. -/
def crashReport (m : String) : List Event :=
  [Event.Write m, Event.ConsoleWrite m, Event.Flush]

/-- The error protocol as the claim words it: the composed message and the log location
through the crash reporter, a second capture, the release of the configuration. -/
def errorProtocol (label : String) (status : PyStatus) (log_filename : String) : List Event :=
  crashReport (label ++ "\n\t" ++ status.func ++ ": " ++ status.err_msg ++ "\n") ++
  crashReport ("\tSee " ++ log_filename ++ "\n") ++
  [Event.StartStdErrCapture, Event.call Call.PyConfig_Clear]

/-- Whether a call is the runtime call of a bootstrap step. -/
def Call.isStepCall : Call → Bool
  | Call.Py_PreInitialize _ _ => true
  | Call.PyConfig_SetString_home _ => true
  | Call.PyConfig_SetString_run_module _ => true
  | Call.PyConfig_Read => true
  | Call.PyWideStringList_Append _ => true
  | Call.PyConfig_SetArgv _ _ => true
  | Call.Py_InitializeFromConfig _ _ _ => true
  | _ => false

/-- The number of bootstrap steps whose runtime call was made. -/
def stepCallCount : List Event → Nat
  | [] => 0
  | Event.call c :: es => (if c.isStepCall then 1 else 0) + stepCallCount es
  | _ :: es => stepCallCount es

/-- The text lines of a list of strings of the runtime, when every one of them can be
encoded. -/
def decodeLines : List PyUnicode → Option (List String)
  | [] => some []
  | l :: ls =>
    match PyUnicode_AsUTF8AndSize l, decodeLines ls with
    | some cs, some rest => some (String.mk cs :: rest)
    | _, _ => none

/-- The lines `traceback.format_exception` returns for a traceback, as text: defined when the
formatter returns a list and every string of it can be encoded. -/
def Env.format_exception (env : Env) (traceback : TbObject) : Option (List String) :=
  match env.format_exception_list traceback with
  | none => none
  | some list => decodeLines list

/-- The exit code `Main` resolves for a raised exception (Main.cpp lines 381-391). -/
def Env.resolvedCode (env : Env) : Int :=
  if env.is_SystemExit then
    match env.systemExit_code with
    | none => -10
    | some systemExit_code => PyLong_AsLong systemExit_code
  else -6

/-- A sample environment in which every call succeeds and the module returns. -/
def demoEnv : Env :=
  { app := demoApp
    ExecutablePath := "C:\\App\\demo.exe"
    StartupPath := "C:\\App"
    Now := "2024-01-01 00:00:00Z"
    BRIEFCASE_MAIN_MODULE := none
    status := fun _ => PyStatus.ok
    start_capture := fun _ => StartResult.mk 0 false 0
    stop_dup2_err := fun _ => 0
    handler_capture := StartResult.mk 0 false 0
    runpy_module := true
    module_attr := true
    app_module := true
    method_args := true
    result := CallResult.returned
    exc_traceback := none
    is_SystemExit := false
    systemExit_code := none
    traceback_module := true
    format_exception_callable := true
    format_exception_list := fun _ => some [] }

/-- The sample environment with the call that sets the home directory failing. -/
def homeFailsEnv : Env :=
  { demoEnv with
    status := fun s =>
      if s = Step.setHome then PyStatus.mk PyStatusType.ERROR "PyConfig_SetString" "no memory" 0
      else PyStatus.ok }

/-- The sample environment with the pre-initialization failing. -/
def preInitFailsEnv : Env :=
  { demoEnv with
    status := fun s =>
      if s = Step.preInitialize then
        PyStatus.mk PyStatusType.ERROR "Py_PreInitialize" "bad locale" 0
      else PyStatus.ok }

/-- The sample environment with a traceback text in which deleting the installation path
joins two fragments that spell it again. -/
def redactionEnv : Env :=
  { demoEnv with
    result := CallResult.raised
    exc_traceback := some TbObject.None
    format_exception_list :=
      fun _ => some [PyUnicode.ofString "ValueError: bad path C:\\C:\\AppApp\n"] }

/-- The sample environment with the module raising `ValueError('\udc80')`: an ordinary
error whose formatted traceback holds a lone surrogate. -/
def surrogateEnv : Env :=
  { demoEnv with
    result := CallResult.raised
    exc_traceback := some (TbObject.tb "runpy" (TbObject.tb "runpy" (TbObject.tb "app"
      TbObject.None)))
    is_SystemExit := false
    format_exception_list := fun _ =>
      some [PyUnicode.ofString "Traceback (most recent call last):\n",
            PyUnicode.ofString "  File \"app\\__main__.py\", line 1, in <module>\n",
            PyUnicode.ofString "ValueError: " ++ [PyChar.surrogate 56448] ++
              PyUnicode.ofString "\n"] }

/-- The sample environment with the module raising `ValueError('bad')`: an ordinary error
whose formatted traceback is plain text. -/
def valueErrorEnv : Env :=
  { demoEnv with
    result := CallResult.raised
    exc_traceback := some (TbObject.tb "runpy" (TbObject.tb "runpy" (TbObject.tb "app"
      TbObject.None)))
    is_SystemExit := false
    format_exception_list := fun _ =>
      some [PyUnicode.ofString "Traceback (most recent call last):\n",
            PyUnicode.ofString "  File \"app\\__main__.py\", line 1, in <module>\n",
            PyUnicode.ofString "ValueError: bad\n"] }

/-! ## Theorems: file system and rotation -/

theorem FileSystem.set_same (fs : FileSystem) (p : String) (n : Option Node) :
    fs.set p n p = n := by
  simp [FileSystem.set]

theorem FileSystem.set_other (fs : FileSystem) (p q : String) (n : Option Node) (h : q ≠ p) :
    fs.set p n q = fs q := by
  simp [FileSystem.set, h]

theorem string_append_left_cancel (p x y : String) (h : p ++ x = p ++ y) : x = y := by
  have h2 := congrArg String.data h
  simp at h2
  exact String.ext h2

/-- One link of a chain: afterwards the destination holds what the source held and the source
is gone, whether or not the source was there. -/
theorem move_link (fs : FileSystem) (src dst : String) (hne : src ≠ dst)
    (hdst : fs dst = none) (hsrc : fs src ≠ some Node.directory) :
    ∃ fs1, (if File.Exists fs src then File.Move fs src dst else pure fs) = Except.ok fs1 ∧
      fs1 dst = fs src ∧ fs1 src = none ∧ ∀ p, p ≠ src → p ≠ dst → fs1 p = fs p := by
  cases hs : fs src with
  | none =>
    refine ⟨fs, ?_, ?_, hs, fun _ _ _ => rfl⟩
    · simp [File.Exists, hs, pure, Except.pure]
    · rw [hdst]
  | some n =>
    cases n with
    | directory => exact absurd hs hsrc
    | file c =>
      refine ⟨(fs.set src none).set dst (some (Node.file c)), ?_, ?_, ?_, ?_⟩
      · simp [File.Exists, File.Move, hs, hdst]
      · simp [FileSystem.set]
      · simp [FileSystem.set, hne]
      · intro p h1 h2
        simp [FileSystem.set, h1, h2]

theorem moveChain_spec (srcs : List String) : ∀ (dst : String) (fs : FileSystem),
    (dst :: srcs).Nodup → fs dst = none → (∀ s ∈ srcs, fs s ≠ some Node.directory) →
    ∃ fs1, moveChain dst srcs fs = Except.ok fs1 ∧
      (∀ p, p ∉ dst :: srcs → fs1 p = fs p) ∧
      (∀ ds ∈ List.zip (dst :: srcs) srcs, fs1 ds.1 = fs ds.2) ∧
      fs1 ((dst :: srcs).getLast (List.cons_ne_nil _ _)) = none := by
  induction srcs with
  | nil =>
    intro dst fs _ hdst _
    exact ⟨fs, rfl, fun _ _ => rfl, by simp, by simpa using hdst⟩
  | cons src rest ih =>
    intro dst fs hnd hdst hfiles
    have hne : src ≠ dst := by
      intro h
      simp [h] at hnd
    obtain ⟨fs1, hstep, h1dst, h1src, h1other⟩ :=
      move_link fs src dst hne hdst (hfiles src (by simp))
    have hnd2 : (src :: rest).Nodup := (List.nodup_cons.1 hnd).2
    have hfiles1 : ∀ s ∈ rest, fs1 s ≠ some Node.directory := by
      intro s hs
      have hs1 : s ≠ src := by
        intro h
        rw [h] at hs
        exact (List.nodup_cons.1 hnd2).1 hs
      have hs2 : s ≠ dst := by
        intro h
        rw [h] at hs
        exact (List.nodup_cons.1 hnd).1 (List.mem_cons_of_mem _ hs)
      rw [h1other s hs1 hs2]
      exact hfiles s (List.mem_cons_of_mem _ hs)
    obtain ⟨fs2, hrest, h2other, h2zip, h2last⟩ := ih src fs1 hnd2 h1src hfiles1
    refine ⟨fs2, ?_, ?_, ?_, ?_⟩
    · have hunfold : moveChain dst (src :: rest) fs =
          ((if File.Exists fs src then File.Move fs src dst else pure fs) >>=
            fun fs1 => moveChain src rest fs1) := rfl
      rw [hunfold, hstep]
      exact hrest
    · intro p hp
      have hp1 : p ∉ src :: rest := fun h => hp (List.mem_cons_of_mem _ h)
      have hp2 : p ≠ dst := fun h => hp (by simp [h])
      have hp3 : p ≠ src := fun h => hp1 (by simp [h])
      rw [h2other p hp1, h1other p hp3 hp2]
    · intro ds hds
      simp only [List.zip_cons_cons, List.mem_cons] at hds
      rcases hds with rfl | hds
      · have hd : dst ∉ src :: rest := (List.nodup_cons.1 hnd).1
        simp only
        rw [h2other dst hd, h1dst]
      · rw [h2zip ds hds]
        have hmem : ds.2 ∈ rest := (List.of_mem_zip hds).2
        have hs1 : ds.2 ≠ src := by
          intro h
          rw [h] at hmem
          exact (List.nodup_cons.1 hnd2).1 hmem
        have hs2 : ds.2 ≠ dst := by
          intro h
          rw [h] at hmem
          exact (List.nodup_cons.1 hnd).1 (List.mem_cons_of_mem _ hmem)
        exact h1other _ hs1 hs2
    · simpa using h2last

theorem history_log_name_eq (a : AppInfo) (k : Nat) :
    a.history_log_name k = a.log_prefix ++ ("-" ++ toString k ++ ".log") := by
  simp [AppInfo.history_log_name, LOG_EXTENSION, String.append_assoc]

theorem evicted_log_eq (a : AppInfo) :
    a.log_prefix ++ "-9" ++ LOG_EXTENSION = a.history_log_name 9 := by
  rw [history_log_name_eq, String.append_assoc]
  rfl

theorem second_log_eq (a : AppInfo) :
    a.log_prefix ++ "-2" ++ LOG_EXTENSION = a.history_log_name 2 := by
  rw [history_log_name_eq, String.append_assoc]
  rfl

theorem log_chain_eq_map (a : AppInfo) :
    a.log_chain = List.map (fun s => a.log_prefix ++ s)
      ["-9.log", "-8.log", "-7.log", "-6.log", "-5.log", "-4.log", "-3.log", "-2.log",
        ".log"] := by
  simp only [AppInfo.log_chain, history_log_name_eq, AppInfo.current_log_name, List.map,
    LOG_EXTENSION]
  rfl

theorem log_chain_nodup (a : AppInfo) : a.log_chain.Nodup := by
  rw [log_chain_eq_map]
  apply List.Nodup.map
  · intro x y h
    exact string_append_left_cancel _ _ _ h
  · decide

/-- The rotation of an existing folder is the deletion of the oldest file followed by one
chain of moves over the nine log paths. -/
theorem rotateLogs_eq_chain (a : AppInfo) (fs : FileSystem)
    (hdir : Directory.Exists fs a.log_folder = true) :
    Main.rotateLogs a fs =
      ((if File.Exists fs (a.history_log_name 9) then File.Delete fs (a.history_log_name 9)
        else pure fs) >>= fun fs1 => moveChain (a.history_log_name 9) a.log_chain.tail fs1) := by
  have hshift : ∀ fs1, Main.shiftLogs a.log_prefix 8 fs1 =
      ((if File.Exists fs1 (a.history_log_name 8) then
          File.Move fs1 (a.history_log_name 8) (a.history_log_name 9) else pure fs1) >>= fun fs2 =>
       (if File.Exists fs2 (a.history_log_name 7) then
          File.Move fs2 (a.history_log_name 7) (a.history_log_name 8) else pure fs2) >>= fun fs3 =>
       (if File.Exists fs3 (a.history_log_name 6) then
          File.Move fs3 (a.history_log_name 6) (a.history_log_name 7) else pure fs3) >>= fun fs4 =>
       (if File.Exists fs4 (a.history_log_name 5) then
          File.Move fs4 (a.history_log_name 5) (a.history_log_name 6) else pure fs4) >>= fun fs5 =>
       (if File.Exists fs5 (a.history_log_name 4) then
          File.Move fs5 (a.history_log_name 4) (a.history_log_name 5) else pure fs5) >>= fun fs6 =>
       (if File.Exists fs6 (a.history_log_name 3) then
          File.Move fs6 (a.history_log_name 3) (a.history_log_name 4) else pure fs6) >>= fun fs7 =>
       (if File.Exists fs7 (a.history_log_name 2) then
          File.Move fs7 (a.history_log_name 2) (a.history_log_name 3) else pure fs7) >>= fun fs8 =>
       pure fs8) := fun _ => rfl
  simp only [Main.rotateLogs, hdir, evicted_log_eq, second_log_eq, hshift, bind_assoc, pure_bind,
    AppInfo.log_chain, List.tail_cons, moveChain, bind_pure, Bool.not_true, Bool.false_eq_true,
    if_false]

theorem evict_step (fs : FileSystem) (p : String) (hp : fs p ≠ some Node.directory) :
    ∃ fs1, (if File.Exists fs p then File.Delete fs p else pure fs) = Except.ok fs1 ∧
      fs1 p = none ∧ ∀ q, q ≠ p → fs1 q = fs q := by
  cases h : fs p with
  | none =>
    refine ⟨fs, ?_, h, fun _ _ => rfl⟩
    simp [File.Exists, h, pure, Except.pure]
  | some n =>
    cases n with
    | directory => exact absurd h hp
    | file c =>
      refine ⟨fs.set p none, ?_, by simp [FileSystem.set], fun q hq => by simp [FileSystem.set, hq]⟩
      simp [File.Exists, File.Delete, h]

/-- What the rotation of an existing folder does to the whole file system. -/
theorem rotateLogs_spec (a : AppInfo) (fs : FileSystem)
    (hdir : Directory.Exists fs a.log_folder = true)
    (hfiles : ∀ p ∈ a.log_chain, fs p ≠ some Node.directory) :
    ∃ fs1, Main.rotateLogs a fs = Except.ok fs1 ∧
      (∀ p, p ∉ a.log_chain → fs1 p = fs p) ∧
      (∀ ds ∈ List.zip a.log_chain a.log_chain.tail, fs1 ds.1 = fs ds.2) ∧
      fs1 a.current_log_name = none := by
  have hnd := log_chain_nodup a
  have hchain : a.log_chain = a.history_log_name 9 :: a.log_chain.tail := rfl
  obtain ⟨fs1, h1, h1nine, h1other⟩ :=
    evict_step fs (a.history_log_name 9) (hfiles _ (by rw [hchain]; simp))
  rw [hchain] at hnd
  have hfiles1 : ∀ s ∈ a.log_chain.tail, fs1 s ≠ some Node.directory := by
    intro s hs
    have hne : s ≠ a.history_log_name 9 := by
      intro h
      rw [h] at hs
      exact (List.nodup_cons.1 hnd).1 hs
    rw [h1other s hne]
    exact hfiles s (by rw [hchain]; exact List.mem_cons_of_mem _ hs)
  obtain ⟨fs2, h2, h2other, h2zip, h2last⟩ :=
    moveChain_spec a.log_chain.tail (a.history_log_name 9) fs1 hnd h1nine hfiles1
  refine ⟨fs2, ?_, ?_, ?_, ?_⟩
  · rw [rotateLogs_eq_chain a fs hdir, h1]
    exact h2
  · intro p hp
    rw [hchain] at hp
    rw [h2other p hp]
    exact h1other p (fun h => hp (by simp [h]))
  · intro ds hds
    have hds2 : ds ∈ List.zip (a.history_log_name 9 :: a.log_chain.tail) a.log_chain.tail := hds
    rw [h2zip ds hds2]
    have hmem : ds.2 ∈ a.log_chain.tail := (List.of_mem_zip hds2).2
    apply h1other
    intro h
    rw [h] at hmem
    exact (List.nodup_cons.1 hnd).1 hmem
  · exact h2last

/-- The first run: the folder is missing and is created; nothing else changes. -/
theorem rotateLogs_first (a : AppInfo) (fs : FileSystem) (h : fs a.log_folder = none) :
    Main.rotateLogs a fs = Except.ok (fs.set a.log_folder (some Node.directory)) := by
  simp [Main.rotateLogs, Directory.Exists, Directory.CreateDirectory, h]

/-- The rotation in terms of history indices. -/
theorem rotateLogs_shift (a : AppInfo) (fs : FileSystem)
    (hdir : Directory.Exists fs a.log_folder = true)
    (hfiles : ∀ p ∈ a.log_chain, fs p ≠ some Node.directory) :
    ∃ fs1, Main.rotateLogs a fs = Except.ok fs1 ∧
      (∀ p, p ∉ a.log_chain → fs1 p = fs p) ∧
      (∀ k, 2 ≤ k → k ≤ 8 → fs1 (a.history_log_name (k + 1)) = fs (a.history_log_name k)) ∧
      fs1 (a.history_log_name 2) = fs a.current_log_name ∧
      fs1 a.current_log_name = none := by
  obtain ⟨fs1, hok, hother, hzip, hlast⟩ := rotateLogs_spec a fs hdir hfiles
  refine ⟨fs1, hok, hother, ?_, ?_, hlast⟩
  · intro k h2 h8
    interval_cases k
    · exact hzip (a.history_log_name 3, a.history_log_name 2) (by simp [AppInfo.log_chain])
    · exact hzip (a.history_log_name 4, a.history_log_name 3) (by simp [AppInfo.log_chain])
    · exact hzip (a.history_log_name 5, a.history_log_name 4) (by simp [AppInfo.log_chain])
    · exact hzip (a.history_log_name 6, a.history_log_name 5) (by simp [AppInfo.log_chain])
    · exact hzip (a.history_log_name 7, a.history_log_name 6) (by simp [AppInfo.log_chain])
    · exact hzip (a.history_log_name 8, a.history_log_name 7) (by simp [AppInfo.log_chain])
    · exact hzip (a.history_log_name 9, a.history_log_name 8) (by simp [AppInfo.log_chain])
  · exact hzip (a.history_log_name 2, a.current_log_name) (by simp [AppInfo.log_chain])

theorem mem_log_chain (a : AppInfo) (p : String) :
    p ∈ a.log_chain ↔ p = a.current_log_name ∨ ∃ k, 2 ≤ k ∧ k ≤ 9 ∧ p = a.history_log_name k := by
  constructor
  · intro h
    simp only [AppInfo.log_chain, List.mem_cons, List.mem_singleton, List.not_mem_nil,
      or_false] at h
    rcases h with h | h | h | h | h | h | h | h | h
    · exact Or.inr ⟨9, by omega, by omega, h⟩
    · exact Or.inr ⟨8, by omega, by omega, h⟩
    · exact Or.inr ⟨7, by omega, by omega, h⟩
    · exact Or.inr ⟨6, by omega, by omega, h⟩
    · exact Or.inr ⟨5, by omega, by omega, h⟩
    · exact Or.inr ⟨4, by omega, by omega, h⟩
    · exact Or.inr ⟨3, by omega, by omega, h⟩
    · exact Or.inr ⟨2, by omega, by omega, h⟩
    · exact Or.inl h
  · rintro (h | ⟨k, h2, h9, h⟩)
    · simp [AppInfo.log_chain, h]
    · interval_cases k <;> simp [AppInfo.log_chain, h]

theorem history_ne_current (a : AppInfo) (k : Nat) (h2 : 2 ≤ k) (h9 : k ≤ 9) :
    a.history_log_name k ≠ a.current_log_name := by
  intro h
  rw [history_log_name_eq, AppInfo.current_log_name] at h
  have h3 := string_append_left_cancel _ _ _ h
  interval_cases k <;> exact absurd h3 (by decide)

theorem history_injective (a : AppInfo) (j k : Nat) (hj2 : 2 ≤ j) (hj9 : j ≤ 9)
    (hk2 : 2 ≤ k) (hk9 : k ≤ 9) (h : a.history_log_name j = a.history_log_name k) : j = k := by
  rw [history_log_name_eq, history_log_name_eq] at h
  have h3 := string_append_left_cancel _ _ _ h
  interval_cases j <;> interval_cases k <;> first | rfl | exact absurd h3 (by decide)

theorem folder_ne_log_path (a : AppInfo) (p : String) (hp : p ∈ a.log_chain) :
    p ≠ a.log_folder := by
  intro h
  rw [log_chain_eq_map] at hp
  obtain ⟨s, hs, rfl⟩ := List.mem_map.1 hp
  have hlen := congrArg String.length h
  simp only [AppInfo.log_prefix, String.length_append] at hlen
  have hsep : ("\\" : String).length = 1 := rfl
  omega

theorem log_path_in_folder (a : AppInfo) (p : String) (hp : p ∈ a.log_chain) :
    ∃ name, p = a.log_folder ++ "\\" ++ name := by
  rw [log_chain_eq_map] at hp
  obtain ⟨s, _, rfl⟩ := List.mem_map.1 hp
  exact ⟨a.InternalName ++ s, by simp [AppInfo.log_prefix, String.append_assoc]⟩

/-- The first run on a missing, empty folder establishes the invariant. -/
theorem logRun_first (a : AppInfo) (fs : FileSystem) (w : String)
    (hdir : fs a.log_folder = none)
    (hempty : ∀ name, fs (a.log_folder ++ "\\" ++ name) = none) :
    ∃ fs1, Main.logRun a fs w = Except.ok fs1 ∧ LogInv a fs1 [w] := by
  have hcur : a.current_log_name ∈ a.log_chain := by simp [AppInfo.log_chain]
  have hcur_ne : a.current_log_name ≠ a.log_folder := folder_ne_log_path a _ hcur
  have habsent : ∀ p ∈ a.log_chain, fs p = none := by
    intro p hp
    obtain ⟨name, rfl⟩ := log_path_in_folder a p hp
    exact hempty name
  refine ⟨(fs.set a.log_folder (some Node.directory)).set a.current_log_name
    (some (Node.file w)), ?_, ?_, ?_, ?_, ?_, ?_⟩
  · have hc : (fs.set a.log_folder (some Node.directory)) a.current_log_name = none := by
      rw [FileSystem.set_other _ _ _ _ hcur_ne]
      exact habsent _ hcur
    simp [Main.logRun, rotateLogs_first a fs hdir, StreamWriter.create, hc, bind, Except.bind]
  · rw [FileSystem.set_other _ _ _ _ (Ne.symm hcur_ne), FileSystem.set_same]
  · intro name hname
    by_cases h1 : a.log_folder ++ "\\" ++ name = a.current_log_name
    · rw [h1]
      exact hcur
    · exfalso
      apply hname
      rw [FileSystem.set_other _ _ _ _ h1]
      have h2 : a.log_folder ++ "\\" ++ name ≠ a.log_folder := by
        intro h
        have hlen := congrArg String.length h
        simp only [String.length_append] at hlen
        have hsep : ("\\" : String).length = 1 := rfl
        omega
      rw [FileSystem.set_other _ _ _ _ h2]
      exact hempty name
  · simp [FileSystem.set]
  · simp
  · intro k h2 h9
    have hk : a.history_log_name k ∈ a.log_chain :=
      (mem_log_chain a _).2 (Or.inr ⟨k, h2, h9, rfl⟩)
    rw [FileSystem.set_other _ _ _ _ (history_ne_current a k h2 h9),
      FileSystem.set_other _ _ _ _ (folder_ne_log_path a _ hk), habsent _ hk]
    have : k - 1 = (k - 2) + 1 := by omega
    rw [this]
    simp

/-- Every later run keeps the invariant and pushes the new log in front. -/
theorem logRun_step (a : AppInfo) (fs : FileSystem) (done : List String) (w : String)
    (hinv : LogInv a fs done) :
    ∃ fs1, Main.logRun a fs w = Except.ok fs1 ∧ LogInv a fs1 (w :: done) := by
  obtain ⟨hdir, hfolder, hcur, hne, hhist⟩ := hinv
  have hcurmem : a.current_log_name ∈ a.log_chain := by simp [AppInfo.log_chain]
  have hfiles : ∀ p ∈ a.log_chain, fs p ≠ some Node.directory := by
    intro p hp
    rcases (mem_log_chain a p).1 hp with rfl | ⟨k, h2, h9, rfl⟩
    · rw [hcur]
      cases done[0]? <;> simp
    · rw [hhist k h2 h9]
      cases done[k - 1]? <;> simp
  obtain ⟨fs1, hok, hother, hshift, hsecond, hlast⟩ :=
    rotateLogs_shift a fs (by simp [Directory.Exists, hdir]) hfiles
  refine ⟨fs1.set a.current_log_name (some (Node.file w)), ?_, ?_, ?_, ?_, ?_, ?_⟩
  · simp [Main.logRun, hok, StreamWriter.create, hlast, bind, Except.bind]
  · rw [FileSystem.set_other _ _ _ _ (Ne.symm (folder_ne_log_path a _ hcurmem)),
      hother _ (fun h => folder_ne_log_path a _ h rfl)]
    exact hdir
  · intro name hname
    by_contra hnot
    apply hname
    have h1 : a.log_folder ++ "\\" ++ name ≠ a.current_log_name := fun h => hnot (h ▸ hcurmem)
    rw [FileSystem.set_other _ _ _ _ h1, hother _ hnot]
    by_contra hpresent
    exact hnot (hfolder name hpresent)
  · simp [FileSystem.set]
  · simp
  · intro k h2 h9
    rw [FileSystem.set_other _ _ _ _ (history_ne_current a k h2 h9)]
    by_cases hk : k = 2
    · subst hk
      rw [hsecond, hcur]
      cases done with
      | nil => exact absurd rfl hne
      | cons d ds => simp
    · have hk3 : 3 ≤ k := by omega
      have hshift1 := hshift (k - 1) (by omega) (by omega)
      have e1 : k - 1 + 1 = k := by omega
      rw [e1] at hshift1
      rw [hshift1, hhist (k - 1) (by omega) (by omega)]
      have e2 : k - 1 = (k - 1 - 1) + 1 := by omega
      rw [e2]
      simp

/-- Runs after the first: the invariant after all of them. -/
theorem logRuns_inv (a : AppInfo) (ws : List String) : ∀ (fs : FileSystem) (done : List String),
    LogInv a fs done →
    ∃ fsN, Main.logRuns a fs ws = Except.ok fsN ∧ LogInv a fsN (ws.reverse ++ done) := by
  induction ws with
  | nil =>
    intro fs done h
    exact ⟨fs, rfl, by simpa using h⟩
  | cons w ws ih =>
    intro fs done h
    obtain ⟨fs1, hrun, hinv1⟩ := logRun_step a fs done w h
    obtain ⟨fsN, hruns, hinvN⟩ := ih fs1 (w :: done) hinv1
    refine ⟨fsN, ?_, by simpa using hinvN⟩
    simp [Main.logRuns, hrun, bind, Except.bind]
    exact hruns

theorem File.Move_ok_dest_free (fs0 : FileSystem) (source dest : String) (fs2 : FileSystem)
    (h : File.Move fs0 source dest = Except.ok fs2) : fs0 dest = none := by
  unfold File.Move at h
  split at h
  · split at h
    · cases h
    · assumption
  · cases h

/-! ## Claims about the rotation -/

/-- C2 (rotation order preservation): in an existing log folder whose log paths are files or
absent, the rotation block succeeds; afterwards history index `k + 1` holds exactly what index
`k` held before (a file with the same content, or nothing) for every `k` from 2 to 8, and
index 2 holds what the active log held (a file with its content, or nothing). -/
theorem rotation_order_preservation (a : AppInfo) (fs : FileSystem)
    (hdir : Directory.Exists fs a.log_folder = true)
    (hfiles : ∀ p ∈ a.log_chain, fs p ≠ some Node.directory) :
    ∃ fs1, Main.rotateLogs a fs = Except.ok fs1 ∧
      (∀ k, 2 ≤ k → k ≤ 8 → fs1 (a.history_log_name (k + 1)) = fs (a.history_log_name k)) ∧
      fs1 (a.history_log_name 2) = fs a.current_log_name := by
  obtain ⟨fs1, hok, _, hshift, hsecond, _⟩ := rotateLogs_shift a fs hdir hfiles
  exact ⟨fs1, hok, hshift, hsecond⟩

/-- C2 on the folder holding the active log and the history files 2, 3 and 5: afterwards the
history files are exactly 2, 3, 4 and 6, with the contents shifted. -/
theorem rotation_order_preservation_witness :
    ∃ fs1, Main.rotateLogs demoApp demoFS = Except.ok fs1 ∧
      fs1 (demoApp.history_log_name 2) = some (Node.file "active") ∧
      fs1 (demoApp.history_log_name 3) = some (Node.file "two") ∧
      fs1 (demoApp.history_log_name 4) = some (Node.file "three") ∧
      fs1 (demoApp.history_log_name 5) = none ∧
      fs1 (demoApp.history_log_name 6) = some (Node.file "five") ∧
      fs1 (demoApp.history_log_name 7) = none ∧
      fs1 (demoApp.history_log_name 8) = none ∧
      fs1 (demoApp.history_log_name 9) = none := by
  obtain ⟨fs1, hok, hshift, hsecond⟩ :=
    rotation_order_preservation demoApp demoFS (by decide) (by decide)
  refine ⟨fs1, hok, ?_, ?_, ?_, ?_, ?_, ?_, ?_, ?_⟩
  · rw [hsecond]; decide
  · rw [hshift 2 (by omega) (by omega)]; decide
  · rw [hshift 3 (by omega) (by omega)]; decide
  · rw [hshift 4 (by omega) (by omega)]; decide
  · rw [hshift 5 (by omega) (by omega)]; decide
  · rw [hshift 6 (by omega) (by omega)]; decide
  · rw [hshift 7 (by omega) (by omega)]; decide
  · rw [hshift 8 (by omega) (by omega)]; decide

/-- C3 (rotation never overwrites, never fails): a move succeeds only onto a free destination
path; in an existing log folder whose log paths are files or absent (any of the indices 2..9
and the active log present or not), the rotation block raises no exception, so every move it
performed found its destination free; and every file of the file system other than the one at
index 9 still exists afterwards, with its content, at some path. -/
theorem rotation_never_overwrites (a : AppInfo) (fs : FileSystem)
    (hdir : Directory.Exists fs a.log_folder = true)
    (hfiles : ∀ p ∈ a.log_chain, fs p ≠ some Node.directory) :
    (∀ fs0 source dest fs2, File.Move fs0 source dest = Except.ok fs2 → fs0 dest = none) ∧
    ∃ fs1, Main.rotateLogs a fs = Except.ok fs1 ∧
      ∀ p c, fs p = some (Node.file c) → p ≠ a.history_log_name 9 →
        ∃ q, fs1 q = some (Node.file c) := by
  obtain ⟨fs1, hok, hother, hshift, hsecond, _⟩ := rotateLogs_shift a fs hdir hfiles
  refine ⟨File.Move_ok_dest_free, fs1, hok, ?_⟩
  intro p c hp hne
  by_cases hmem : p ∈ a.log_chain
  · rcases (mem_log_chain a p).1 hmem with rfl | ⟨k, h2, h9, rfl⟩
    · exact ⟨a.history_log_name 2, by rw [hsecond, hp]⟩
    · have hk : k ≤ 8 := by
        rcases Nat.lt_or_ge k 9 with h | h
        · omega
        · have : k = 9 := by omega
          subst this
          exact absurd rfl hne
      exact ⟨a.history_log_name (k + 1), by rw [hshift k h2 hk, hp]⟩
  · exact ⟨p, by rw [hother p hmem, hp]⟩

/-- C3 on a folder holding the active log and the history files 2, 3 and 5. -/
theorem rotation_never_overwrites_witness :
    (∀ fs0 source dest fs2, File.Move fs0 source dest = Except.ok fs2 → fs0 dest = none) ∧
    ∃ fs1, Main.rotateLogs demoApp demoFS = Except.ok fs1 ∧
      ∀ p c, demoFS p = some (Node.file c) → p ≠ demoApp.history_log_name 9 →
        ∃ q, fs1 q = some (Node.file c) :=
  rotation_never_overwrites demoApp demoFS (by decide) (by decide)

/-- C9 (rotation bound): starting from a file system in which the log folder does not exist
(and so holds nothing), every sequence of one or more runs succeeds; afterwards the active
log exists and holds the last run's log, everything present in the folder is the active log
or a history file of index 2..9, history index `k` holds the log written `k - 1` runs earlier
(nothing when there were fewer runs, and nothing older than index 9 survives), and any
collection of distinct entries of the folder other than the active log has at most eight
members. -/
theorem rotation_bound (a : AppInfo) (fs : FileSystem) (w : String) (ws : List String)
    (hdir : fs a.log_folder = none)
    (hempty : ∀ name, fs (a.log_folder ++ "\\" ++ name) = none) :
    ∃ fsN, Main.logRuns a fs (w :: ws) = Except.ok fsN ∧
      fsN a.current_log_name = some (Node.file ((w :: ws).getLast (List.cons_ne_nil w ws))) ∧
      (∀ name, fsN (a.log_folder ++ "\\" ++ name) ≠ none →
        a.log_folder ++ "\\" ++ name = a.current_log_name ∨
        ∃ k, 2 ≤ k ∧ k ≤ 9 ∧ a.log_folder ++ "\\" ++ name = a.history_log_name k) ∧
      (∀ k, 2 ≤ k → k ≤ 9 →
        fsN (a.history_log_name k) = ((w :: ws).reverse[k - 1]?).map Node.file) ∧
      (∀ l : List String, l.Nodup →
        (∀ p ∈ l, (∃ name, p = a.log_folder ++ "\\" ++ name) ∧ fsN p ≠ none ∧
          p ≠ a.current_log_name) → l.length ≤ 8) := by
  obtain ⟨fs1, hrun, hinv1⟩ := logRun_first a fs w hdir hempty
  obtain ⟨fsN, hruns, hinvN⟩ := logRuns_inv a ws fs1 [w] hinv1
  obtain ⟨_, hfolder, hcur, _, hhist⟩ := hinvN
  have hrev : ws.reverse ++ [w] = (w :: ws).reverse := by simp
  rw [hrev] at hcur hhist
  refine ⟨fsN, ?_, ?_, ?_, hhist, ?_⟩
  · simp only [Main.logRuns, hrun, bind, Except.bind]
    exact hruns
  · rw [hcur, ← List.head?_eq_getElem?, List.head?_reverse,
      List.getLast?_eq_getLast _ (List.cons_ne_nil w ws)]
    rfl
  · intro name hname
    exact (mem_log_chain a _).1 (hfolder name hname)
  · intro l hnd hl
    have hsub : l ⊆ (List.range' 2 8).map a.history_log_name := by
      intro p hp
      obtain ⟨⟨name, rfl⟩, hpres, hnc⟩ := hl p hp
      rcases (mem_log_chain a _).1 (hfolder name hpres) with h | ⟨k, h2, h9, h⟩
      · exact absurd h hnc
      · rw [h]
        exact List.mem_map.2 ⟨k, List.mem_range'_1.2 ⟨h2, by omega⟩, rfl⟩
    have hlen := (hnd.subperm hsub).length_le
    simpa using hlen

/-- C9 on two runs of the sample application from the empty file system. -/
theorem rotation_bound_witness :
    ∃ fsN, Main.logRuns demoApp FileSystem.empty ["first", "second"] = Except.ok fsN ∧
      fsN demoApp.current_log_name = some (Node.file "second") ∧
      fsN (demoApp.history_log_name 2) = some (Node.file "first") ∧
      fsN (demoApp.history_log_name 3) = none := by
  obtain ⟨fsN, hok, hcur, _, hhist, _⟩ :=
    rotation_bound demoApp FileSystem.empty "first" ["second"] rfl (fun _ => rfl)
  exact ⟨fsN, hok, hcur, hhist 2 (by omega) (by omega), hhist 3 (by omega) (by omega)⟩

/-! ## Theorems: symbolic execution of computations -/

theorem Run.pure_bind {α β : Type} (a : α) (f : α → Run β) : (pure a >>= f) = f a := by
  show Run.bind _ _ = _
  simp [Run.bind, pure]

theorem Run.bind_assoc {α β γ : Type} (m : Run α) (f : α → Run β) (g : β → Run γ) :
    (m >>= f >>= g) = (m >>= fun a => f a >>= g) := by
  show Run.bind (Run.bind _ _) _ = Run.bind _ (fun a => Run.bind _ _)
  rcases m with ⟨t, r⟩
  cases r with
  | error e => rfl
  | ok a =>
    simp only [Run.bind]
    cases (f a).result with
    | error e => rfl
    | ok b => simp

theorem emit_bind_trace {β : Type} (e : Event) (f : Unit → Run β) :
    (emit e >>= f).trace = e :: (f ()).trace := rfl

theorem emit_bind_result {β : Type} (e : Event) (f : Unit → Run β) :
    (emit e >>= f).result = (f ()).result := rfl

theorem emit_trace (e : Event) : (emit e).trace = [e] := rfl

theorem emit_result (e : Event) : (emit e).result = Except.ok () := rfl

theorem exit_bind {α β : Type} (code : Int) (f : α → Run β) :
    ((exit code : Run α) >>= f) = exit code := rfl

theorem Py_ExitStatusException_bind {α β : Type} (status : PyStatus) (f : α → Run β) :
    ((Py_ExitStatusException status : Run α) >>= f) = Py_ExitStatusException status := rfl

theorem throw_bind {α β : Type} (e : HostException) (f : α → Run β) :
    ((Run.throw e : Run α) >>= f) = Run.throw e := rfl

theorem ite_bind {α β : Type} (c : Prop) [Decidable c] (x y : Run α) (f : α → Run β) :
    ((if c then x else y) >>= f) = if c then x >>= f else y >>= f := by
  split <;> rfl

theorem ite_trace {α : Type} (c : Prop) [Decidable c] (x y : Run α) :
    (if c then x else y).trace = if c then x.trace else y.trace := by
  split <;> rfl

theorem ite_result {α : Type} (c : Prop) [Decidable c] (x y : Run α) :
    (if c then x else y).result = if c then x.result else y.result := by
  split <;> rfl

theorem pure_trace {α : Type} (a : α) : (pure a : Run α).trace = [] := rfl

theorem pure_result {α : Type} (a : α) : (pure a : Run α).result = Except.ok a := rfl

theorem exit_trace {α : Type} (code : Int) : (exit code : Run α).trace = [] := rfl

theorem exit_result {α : Type} (code : Int) :
    (exit code : Run α).result = Except.error (Stop.exit code) := rfl

theorem Py_ExitStatusException_trace {α : Type} (status : PyStatus) :
    (Py_ExitStatusException status : Run α).trace = [] := rfl

theorem Py_ExitStatusException_result {α : Type} (status : PyStatus) :
    (Py_ExitStatusException status : Run α).result =
      Except.error (Stop.Py_ExitStatusException status) := rfl

theorem logsOutsideCapture_ite (b : Bool) (c : Prop) [Decidable c] (x y : List Event) :
    logsOutsideCapture b (if c then x else y) =
      if c then logsOutsideCapture b x else logsOutsideCapture b y := by
  split <;> rfl

theorem tryCatch_emit_bind {α : Type} (e : Event) (f : Unit → Run α)
    (h : HostException → Run α) :
    Run.tryCatch (emit e >>= f) h = (emit e >>= fun u => Run.tryCatch (f u) h) := by
  show Run.tryCatch (Run.bind _ _) h = Run.bind _ _
  simp only [Run.tryCatch, Run.bind, emit]
  rcases hres : (f ()).result with s | a
  · cases s <;> simp [hres]
  · simp [hres]

theorem tryCatch_ite {α : Type} (c : Prop) [Decidable c] (x y : Run α)
    (h : HostException → Run α) :
    Run.tryCatch (if c then x else y) h = if c then Run.tryCatch x h else Run.tryCatch y h := by
  split <;> rfl

theorem tryCatch_pure {α : Type} (a : α) (h : HostException → Run α) :
    Run.tryCatch (pure a) h = pure a := rfl

theorem tryCatch_exit {α : Type} (code : Int) (h : HostException → Run α) :
    Run.tryCatch (exit code) h = exit code := rfl

theorem tryCatch_throw {α : Type} (e : HostException) (h : HostException → Run α) :
    Run.tryCatch (Run.throw e) h = h e := by
  simp [Run.tryCatch, Run.throw]

theorem all_ite (p : Event → Bool) (c : Prop) [Decidable c] (x y : List Event) :
    (if c then x else y).all p = if c then x.all p else y.all p := by
  split <;> rfl

theorem throw_trace {α : Type} (e : HostException) : (Run.throw e : Run α).trace = [] := rfl

theorem throw_result {α : Type} (e : HostException) :
    (Run.throw e : Run α).result = Except.error (Stop.exception e) := rfl

theorem ofExcept_ok {α : Type} (a : α) :
    Run.ofExcept (Except.ok a : Except HostException α) = pure a := rfl

theorem ofExcept_error {α : Type} (e : HostException) :
    (Run.ofExcept (Except.error e : Except HostException α)) = Run.throw e := rfl

/-- The three shapes of a call of `format_traceback`: it gives up after the import, it returns
a string after looking up the formatter, or a call of the base class library raises. -/
theorem format_traceback_cases (env : Env) (tb : TbObject) :
    (∃ str, format_traceback env tb =
      (emit (Event.call (Call.PyImport_ImportModule "traceback")) >>= fun _ => pure str)) ∨
    (∃ str, format_traceback env tb =
      (emit (Event.call (Call.PyImport_ImportModule "traceback")) >>= fun _ =>
        emit (Event.call (Call.PyObject_GetAttrString "format_exception")) >>= fun _ =>
          pure str)) ∨
    (∃ e, format_traceback env tb =
      (emit (Event.call (Call.PyImport_ImportModule "traceback")) >>= fun _ =>
        emit (Event.call (Call.PyObject_GetAttrString "format_exception")) >>= fun _ =>
          Run.throw e)) := by
  simp only [format_traceback, String.Replace, UTF8Encoding.GetString]
  by_cases h1 : env.traceback_module = true
  · by_cases h2 : env.format_exception_callable = true
    · simp only [h1, h2, Bool.not_true, Bool.false_eq_true, if_false, if_true]
      split
      · exact Or.inr (Or.inl ⟨_, rfl⟩)
      · split
        · simp only [ofExcept_error, throw_bind]
          exact Or.inr (Or.inr ⟨_, rfl⟩)
        · by_cases h3 : env.StartupPath = ""
          · simp only [h3, if_true, ofExcept_ok, ofExcept_error, Run.pure_bind]
            exact Or.inr (Or.inr ⟨_, rfl⟩)
          · simp only [h3, if_false, ofExcept_ok, Run.pure_bind]
            exact Or.inr (Or.inl ⟨_, rfl⟩)
    · simp only [h1, h2, Bool.not_true, Bool.false_eq_true, if_false]
      exact Or.inr (Or.inl ⟨_, rfl⟩)
  · simp only [h1, Bool.not_eq_true] at h1 ⊢
    simp only [h1, Bool.not_false, if_true]
    exact Or.inl ⟨_, rfl⟩

theorem run_events (env : Env) (log : LogWriter) (crash_dialog : CrashDialogWriter)
    (n s : String) :
    (Main.run env log crash_dialog n s).trace.all Event.isRunnerEvent = true := by
  rcases htb : env.exc_traceback with _ | tb
  · rcases hres : env.result with _ | _ | e <;>
    rcases hcode : env.systemExit_code with _ | code <;>
    simp only [Main.run, PyObject_Call, hres, htb, hcode,
      Run.bind_assoc, Run.pure_bind, exit_bind, throw_bind, ite_bind,
      LogWriter.Write, LogWriter.WriteLine, LogWriter.Flush, CrashDialogWriter.Write,
      Console.Write, tryCatch_emit_bind, tryCatch_ite, tryCatch_pure, tryCatch_exit,
      tryCatch_throw, Bool.not_true, Bool.not_false, Bool.false_eq_true, if_false, if_true,
      emit_bind_trace, ite_trace, pure_trace, exit_trace, throw_trace, all_ite,
      List.all_cons, List.all_nil, Event.isRunnerEvent, Bool.and_self, ite_self,
      Bool.true_and]
  · rcases hres : env.result with _ | _ | e <;>
    rcases hcode : env.systemExit_code with _ | code <;>
    rcases format_traceback_cases env tb with ⟨str, hf⟩ | ⟨str, hf⟩ | ⟨e2, hf⟩ <;>
    simp only [Main.run, PyObject_Call, hf, hres, htb, hcode,
      Run.bind_assoc, Run.pure_bind, exit_bind, throw_bind, ite_bind,
      LogWriter.Write, LogWriter.WriteLine, LogWriter.Flush, CrashDialogWriter.Write,
      Console.Write, tryCatch_emit_bind, tryCatch_ite, tryCatch_pure, tryCatch_exit,
      tryCatch_throw, Bool.not_true, Bool.not_false, Bool.false_eq_true, if_false, if_true,
      emit_bind_trace, ite_trace, pure_trace, exit_trace, throw_trace, all_ite,
      List.all_cons, List.all_nil, Event.isRunnerEvent, Bool.and_self, ite_self,
      Bool.true_and]

/-! ## Theorems: event sequences -/

theorem runner_logsOutsideCapture (t : List Event) (h : t.all Event.isRunnerEvent = true) :
    logsOutsideCapture false t = true := by
  induction t with
  | nil => rfl
  | cons e es ih =>
    simp only [List.all_cons, Bool.and_eq_true] at h
    cases e <;> simp_all [logsOutsideCapture, Event.isRunnerEvent]

theorem runner_captureActive (t : List Event) (h : t.all Event.isRunnerEvent = true)
    (b : Bool) : captureActive b t = b := by
  induction t with
  | nil => rfl
  | cons e es ih =>
    simp only [List.all_cons, Bool.and_eq_true] at h
    cases e <;> simp_all [captureActive, Event.isRunnerEvent]

theorem runner_capturesAlternate (t : List Event) (h : t.all Event.isRunnerEvent = true)
    (b : Bool) : capturesAlternate b t = true := by
  induction t with
  | nil => rfl
  | cons e es ih =>
    simp only [List.all_cons, Bool.and_eq_true] at h
    cases e <;> simp_all [capturesAlternate, Event.isRunnerEvent]

theorem runner_searchPathAppends (t : List Event) (h : t.all Event.isRunnerEvent = true) :
    searchPathAppends t = [] := by
  induction t with
  | nil => rfl
  | cons e es ih =>
    simp only [List.all_cons, Bool.and_eq_true] at h
    rcases e with _ | _ | _ | _ | _ | _ | c
    all_goals first
      | (cases c <;> simp_all [searchPathAppends, Event.isRunnerEvent])
      | simp_all [searchPathAppends, Event.isRunnerEvent]

theorem runner_argvCalls (t : List Event) (h : t.all Event.isRunnerEvent = true) :
    argvCalls t = [] := by
  induction t with
  | nil => rfl
  | cons e es ih =>
    simp only [List.all_cons, Bool.and_eq_true] at h
    rcases e with _ | _ | _ | _ | _ | _ | c
    all_goals first
      | (cases c <;> simp_all [argvCalls, Event.isRunnerEvent])
      | simp_all [argvCalls, Event.isRunnerEvent]

theorem captureActive_ite (b : Bool) (c : Prop) [Decidable c] (x y : List Event) :
    captureActive b (if c then x else y) =
      if c then captureActive b x else captureActive b y := by
  split <;> rfl

theorem capturesAlternate_ite (b : Bool) (c : Prop) [Decidable c] (x y : List Event) :
    capturesAlternate b (if c then x else y) =
      if c then capturesAlternate b x else capturesAlternate b y := by
  split <;> rfl

theorem searchPathAppends_ite (c : Prop) [Decidable c] (x y : List Event) :
    searchPathAppends (if c then x else y) =
      if c then searchPathAppends x else searchPathAppends y := by
  split <;> rfl

theorem argvCalls_ite (c : Prop) [Decidable c] (x y : List Event) :
    argvCalls (if c then x else y) = if c then argvCalls x else argvCalls y := by
  split <;> rfl

/-- On every path of `Main`, log operations stay outside capture windows. -/
theorem Main_logsOutsideCapture (env : Env) (args : List String) :
    logsOutsideCapture false (Main env args).trace = true := by
  have hrun := fun log cd n s => runner_logsOutsideCapture _ (run_events env log cd n s)
  simp only [Main, Run.bind_assoc, Run.pure_bind, exit_bind,
    Py_ExitStatusException_bind, ite_bind,
    LogWriter.Write, LogWriter.WriteLine, LogWriter.Flush, LogWriter.StartStdErrCapture,
    LogWriter.StopStdErrCapture, CrashDialogWriter.Write, ExitStatusExceptionHandler.Handle,
    Console.Write]
  simp only [emit_bind_trace, ite_trace, pure_trace,
    exit_trace, Py_ExitStatusException_trace,
    logsOutsideCapture_ite, logsOutsideCapture, Event.isLogOp, hrun, List.append_eq,
    List.nil_append, Bool.and_false, Bool.and_true, Bool.not_false, Bool.true_and, ite_self]

/-- On every path of `Main`, capture starts and stops alternate. -/
theorem Main_capturesAlternate (env : Env) (args : List String) :
    capturesAlternate false (Main env args).trace = true := by
  have hrun := fun log cd n s => runner_capturesAlternate _ (run_events env log cd n s) false
  simp only [Main, Run.bind_assoc, Run.pure_bind, exit_bind,
    Py_ExitStatusException_bind, ite_bind,
    LogWriter.Write, LogWriter.WriteLine, LogWriter.Flush, LogWriter.StartStdErrCapture,
    LogWriter.StopStdErrCapture, CrashDialogWriter.Write, ExitStatusExceptionHandler.Handle,
    Console.Write]
  simp only [emit_bind_trace, ite_trace, pure_trace,
    exit_trace, Py_ExitStatusException_trace,
    capturesAlternate_ite, capturesAlternate, hrun, List.append_eq,
    List.nil_append, Bool.and_false, Bool.and_true, Bool.not_false, Bool.true_and, ite_self,
    Bool.not_true, Bool.and_self]

/-- When the capture toggles themselves succeed, a capture is still active when the process
ends exactly when it ends in the status handler. -/
theorem Main_captureActive (env : Env) (args : List String) (hc : env.capturesSucceed) :
    captureActive false (Main env args).trace = env.handlerReached := by
  have hrun := fun log cd n s => runner_captureActive _ (run_events env log cd n s) false
  obtain ⟨h1, h2, h3, h4, h5, h6, h7⟩ := hc
  simp only [Main, Run.bind_assoc, Run.pure_bind, exit_bind,
    Py_ExitStatusException_bind, ite_bind,
    LogWriter.Write, LogWriter.WriteLine, LogWriter.Flush, LogWriter.StartStdErrCapture,
    LogWriter.StopStdErrCapture, CrashDialogWriter.Write, ExitStatusExceptionHandler.Handle,
    Console.Write]
  simp only [emit_bind_trace, ite_trace, pure_trace,
    exit_trace, Py_ExitStatusException_trace,
    captureActive_ite, captureActive, hrun, List.append_eq,
    List.nil_append, h1, h2, h3, h4, h5, h6, h7, ne_eq, not_true_eq_false, if_false,
    Bool.false_eq_true, Env.handlerReached]
  cases PyStatus_Exception (env.status Step.preInitialize) <;>
  cases PyStatus_Exception (env.status Step.setHome) <;>
  cases PyStatus_Exception (env.status Step.setRunModule) <;>
  cases PyStatus_Exception (env.status Step.readConfig) <;>
  cases PyStatus_Exception (env.status Step.appendZip) <;>
  cases PyStatus_Exception (env.status Step.appendHome) <;>
  cases PyStatus_Exception (env.status Step.appendAppPackages) <;>
  cases PyStatus_Exception (env.status Step.appendApp) <;>
  cases PyStatus_Exception (env.status Step.setArgv) <;>
  cases PyStatus_Exception (env.status Step.initRuntime) <;> rfl

/-! ## Theorems: the argument vector -/

theorem buildArgv_loop (exe : String) (args : List String) (n : Nat) (hn : n ≤ args.length) :
    (List.range n).foldl
        (fun argv i => argv.set (i + 1) (some (wstr (args.getD i ""))))
        ((List.replicate (args.length + 1) none).set 0 (some (wstr exe))) =
      some exe :: ((args.take n).map some ++ List.replicate (args.length - n) none) := by
  induction n with
  | zero => simp [List.replicate_succ, wstr]
  | succ n ih =>
    rw [List.range_succ, List.foldl_append, ih (by omega)]
    simp only [List.foldl_cons, List.foldl_nil, List.set_cons_succ]
    congr 1
    have hlt : n < args.length := by omega
    apply List.ext_getElem?
    intro i
    rw [List.getElem?_set]
    by_cases hi : n = i
    · subst hi
      simp [hlt, wstr, List.getElem?_append_left, List.getElem?_take]
      omega
    · simp only [hi, if_false]
      rcases Nat.lt_or_ge i n with h | h
      · rw [List.getElem?_append_left (by simp; omega),
          List.getElem?_append_left (by simp; omega)]
        simp [List.getElem?_take, h, Nat.lt_succ_of_lt h]
      · have h2 : n < i := by omega
        rw [List.getElem?_append_right (by simp; omega),
          List.getElem?_append_right (by simp; omega)]
        simp only [List.length_map, List.length_take, List.getElem?_replicate]
        have e1 : min n args.length = n := by omega
        have e2 : min (n + 1) args.length = n + 1 := by omega
        rw [e1, e2]
        by_cases h3 : i < args.length
        · simp [show i - n < args.length - n by omega,
            show i - (n + 1) < args.length - (n + 1) by omega]
        · simp [show ¬ (i - n < args.length - n) by omega,
            show ¬ (i - (n + 1) < args.length - (n + 1)) by omega]

/-- The argument vector is the executable path followed by the arguments, all assigned. -/
theorem buildArgv_eq (exe : String) (args : List String) :
    Main.buildArgv exe args = (exe :: args).map some := by
  have h := buildArgv_loop exe args args.length (Nat.le_refl _)
  simp only [Main.buildArgv]
  rw [h]
  simp

/-! ## Claims about the bootstrap configuration -/

/-- C8 (search-path order): when every capture toggle and every bootstrap call succeeds, the
items `Main` appends to the module search path list are exactly four, in this order: the
standard-library archive `python312.zip` under the home directory, the home directory itself,
its `app_packages` subdirectory and its `app` subdirectory. -/
theorem search_path_order (env : Env) (args : List String)
    (hc : env.capturesSucceed) (hs : env.bootstrapSucceeds) :
    searchPathAppends (Main env args).trace =
      [env.StartupPath ++ "\\python312.zip", env.StartupPath,
        env.StartupPath ++ "\\app_packages", env.StartupPath ++ "\\app"] := by
  have hrun := fun log cd n s => runner_searchPathAppends _ (run_events env log cd n s)
  obtain ⟨h1, h2, h3, h4, h5, h6, h7⟩ := hc
  simp only [Main, Run.bind_assoc, Run.pure_bind, exit_bind,
    Py_ExitStatusException_bind, ite_bind,
    LogWriter.Write, LogWriter.WriteLine, LogWriter.Flush, LogWriter.StartStdErrCapture,
    LogWriter.StopStdErrCapture, CrashDialogWriter.Write, ExitStatusExceptionHandler.Handle,
    Console.Write]
  simp only [emit_bind_trace, ite_trace, pure_trace,
    exit_trace, Py_ExitStatusException_trace,
    searchPathAppends_ite, searchPathAppends, hrun, List.append_eq,
    List.nil_append, h1, h2, h3, h4, h5, h6, h7, hs _, ne_eq, not_true_eq_false, if_false,
    Bool.false_eq_true, wstr]

/-- C8 on the sample environment. -/
theorem search_path_order_witness :
    searchPathAppends (Main demoEnv []).trace =
      ["C:\\App\\python312.zip", "C:\\App", "C:\\App\\app_packages", "C:\\App\\app"] :=
  search_path_order demoEnv []
    ⟨fun _ => rfl, fun _ => rfl, fun _ => rfl, fun _ => rfl, rfl, rfl, rfl⟩ (fun _ => rfl)

/-- C10 (argument forwarding): when every capture toggle succeeds and every bootstrap call
before it succeeds, `Main` hands `PyConfig_SetArgv` exactly one argument vector, with count
`|args| + 1`; the vector is the executable path followed by the arguments in their order, every
slot assigned: it has `|args| + 1` slots, slot 0 is the executable path and slot `i + 1` is
`args[i]` for every `i < |args|`. -/
theorem argument_forwarding (env : Env) (args : List String)
    (hc : env.capturesSucceed)
    (hs : ∀ s, s ≠ Step.setArgv → s ≠ Step.initRuntime →
      PyStatus_Exception (env.status s) = false) :
    ∃ argv, argvCalls (Main env args).trace = [(args.length + 1, argv)] ∧
      argv = (env.ExecutablePath :: args).map some ∧
      argv.length = args.length + 1 ∧
      argv[0]? = some (some env.ExecutablePath) ∧
      ∀ i, i < args.length → argv[i + 1]? = some args[i]? := by
  refine ⟨(env.ExecutablePath :: args).map some, ?_, rfl, by simp, by simp, ?_⟩
  · have hrun := fun log cd n s => runner_argvCalls _ (run_events env log cd n s)
    obtain ⟨h1, h2, h3, h4, h5, h6, h7⟩ := hc
    simp only [Main, Run.bind_assoc, Run.pure_bind, exit_bind,
      Py_ExitStatusException_bind, ite_bind,
      LogWriter.Write, LogWriter.WriteLine, LogWriter.Flush, LogWriter.StartStdErrCapture,
      LogWriter.StopStdErrCapture, CrashDialogWriter.Write, ExitStatusExceptionHandler.Handle,
      Console.Write]
    simp only [emit_bind_trace, ite_trace, pure_trace,
      exit_trace, Py_ExitStatusException_trace,
      argvCalls_ite, argvCalls, hrun, List.append_eq,
      List.nil_append, h1, h2, h3, h4, h5, h6, h7, ne_eq, not_true_eq_false, if_false,
      Bool.false_eq_true, buildArgv_eq,
      hs Step.preInitialize (by decide) (by decide), hs Step.setHome (by decide) (by decide),
      hs Step.setRunModule (by decide) (by decide), hs Step.readConfig (by decide) (by decide),
      hs Step.appendZip (by decide) (by decide), hs Step.appendHome (by decide) (by decide),
      hs Step.appendAppPackages (by decide) (by decide),
      hs Step.appendApp (by decide) (by decide), ite_self]
  · intro i hi
    simp [hi]

/-- C10 on the sample environment with two arguments. -/
theorem argument_forwarding_witness :
    ∃ argv, argvCalls (Main demoEnv ["-v", "x"]).trace = [(3, argv)] ∧
      argv = [some "C:\\App\\demo.exe", some "-v", some "x"] ∧
      argv.length = 3 ∧
      argv[0]? = some (some "C:\\App\\demo.exe") ∧
      ∀ i, i < 2 → argv[i + 1]? = some ["-v", "x"][i]? :=
  argument_forwarding demoEnv ["-v", "x"]
    ⟨fun _ => rfl, fun _ => rfl, fun _ => rfl, fun _ => rfl, rfl, rfl, rfl⟩ (fun _ _ _ => rfl)

/-! ## Theorems: the error protocol -/

theorem stepCallCount_ite (c : Prop) [Decidable c] (x y : List Event) :
    stepCallCount (if c then x else y) = if c then stepCallCount x else stepCallCount y := by
  split <;> rfl

theorem suffix_cons_of {l t : List Event} (e : Event) (h : l <:+ t) : l <:+ e :: t :=
  h.trans (List.suffix_cons e t)

/-! ## Claims about the error protocol and the capture windows -/

/-- C5, amended (uniform error protocol): let the capture toggles succeed and every bootstrap
step before `s` return a successful status. Then step `s` runs inside a capture bracket
(start the capture, make the runtime call, stop the capture). If its call returns an error or
exit status, the process ends through `Py_ExitStatusException` with that status and exactly
the steps up to `s` have made their runtime call. For every step after pre-initialization the
run then ends with the same sequence: the bracket, the composed message (label, originating
function, error message) through the crash reporter, the log location through the crash
reporter, a second capture start, the release of the configuration. For pre-initialization,
which runs before a configuration exists, the bracket is followed by its message and by the
log location through the crash reporter, and no configuration is released. -/
theorem uniform_error_protocol (env : Env) (args : List String) (s : Step)
    (hc : env.capturesSucceed)
    (hprev : ∀ t, t.index < s.index → PyStatus_Exception (env.status t) = false) :
    stepBracket (env.stepCall args s) <:+: (Main env args).trace ∧
    (PyStatus_Exception (env.status s) = true →
      (Main env args).result = Except.error (Stop.Py_ExitStatusException (env.status s)) ∧
      stepCallCount (Main env args).trace = s.index + 1 ∧
      (s ≠ Step.preInitialize →
        (stepBracket (env.stepCall args s) ++
          errorProtocol s.label (env.status s) env.app.current_log_name)
          <:+ (Main env args).trace) ∧
      (s = Step.preInitialize →
        (stepBracket (env.stepCall args s) ++ crashReport s.label ++
          crashReport ("See " ++ env.app.current_log_name ++ "\n"))
          <:+: (Main env args).trace ∧
        Event.call Call.PyConfig_Clear ∉ (Main env args).trace)) := by
  obtain ⟨h1, h2, h3, h4, h5, h6, h7⟩ := hc
  cases s with
  | preInitialize =>
    simp only [Main, Run.bind_assoc, Run.pure_bind, exit_bind,
      Py_ExitStatusException_bind, ite_bind,
      LogWriter.Write, LogWriter.WriteLine, LogWriter.Flush, LogWriter.StartStdErrCapture,
      LogWriter.StopStdErrCapture, CrashDialogWriter.Write, ExitStatusExceptionHandler.Handle,
      Console.Write]
    simp only [emit_bind_trace, emit_bind_result, ite_trace, ite_result, pure_trace,
      exit_trace, Py_ExitStatusException_trace, Py_ExitStatusException_result,
      List.append_eq, List.nil_append, h1, h2, h3, h4, h5, h6, h7, ne_eq, not_true_eq_false,
      if_false, Bool.false_eq_true, buildArgv_eq, wstr, Env.stepCall, stepBracket,
      errorProtocol, crashReport, Step.label, Step.index, List.cons_append]
    refine ⟨?_, fun hexc => ?_⟩
    · repeat (first
        | exact (List.prefix_append [_, _, _] _).isInfix
        | apply List.infix_cons)
    · simp only [hexc, if_true, stepCallCount, Call.isStepCall, if_false, Bool.false_eq_true]
      refine ⟨trivial, trivial, fun h => absurd h (by simp),
        fun _ => ⟨List.IsSuffix.isInfix ?_, ?_⟩⟩
      · repeat (first | exact List.suffix_refl _ | apply suffix_cons_of)
      · simp
  | setHome =>
    have p0 := hprev Step.preInitialize (by decide)
    simp only [Main, Run.bind_assoc, Run.pure_bind, exit_bind,
      Py_ExitStatusException_bind, ite_bind,
      LogWriter.Write, LogWriter.WriteLine, LogWriter.Flush, LogWriter.StartStdErrCapture,
      LogWriter.StopStdErrCapture, CrashDialogWriter.Write, ExitStatusExceptionHandler.Handle,
      Console.Write]
    simp only [emit_bind_trace, emit_bind_result, ite_trace, ite_result, pure_trace,
      exit_trace, Py_ExitStatusException_trace, Py_ExitStatusException_result,
      List.append_eq, List.nil_append, h1, h2, h3, h4, h5, h6, h7, ne_eq, not_true_eq_false,
      if_false, Bool.false_eq_true, buildArgv_eq, wstr, Env.stepCall, stepBracket,
      errorProtocol, crashReport, Step.label, Step.index, List.cons_append, p0]
    refine ⟨?_, fun hexc => ?_⟩
    · repeat (first
        | exact (List.prefix_append [_, _, _] _).isInfix
        | apply List.infix_cons)
    · simp only [hexc, if_true, stepCallCount, Call.isStepCall, if_false, Bool.false_eq_true]
      refine ⟨trivial, trivial, fun _ => ?_, fun h => by simp at h⟩
      repeat (first | exact List.suffix_refl _ | apply suffix_cons_of)
  | setRunModule =>
    have p0 := hprev Step.preInitialize (by decide)
    have p1 := hprev Step.setHome (by decide)
    simp only [Main, Run.bind_assoc, Run.pure_bind, exit_bind,
      Py_ExitStatusException_bind, ite_bind,
      LogWriter.Write, LogWriter.WriteLine, LogWriter.Flush, LogWriter.StartStdErrCapture,
      LogWriter.StopStdErrCapture, CrashDialogWriter.Write, ExitStatusExceptionHandler.Handle,
      Console.Write]
    simp only [emit_bind_trace, emit_bind_result, ite_trace, ite_result, pure_trace,
      exit_trace, Py_ExitStatusException_trace, Py_ExitStatusException_result,
      List.append_eq, List.nil_append, h1, h2, h3, h4, h5, h6, h7, ne_eq, not_true_eq_false,
      if_false, Bool.false_eq_true, buildArgv_eq, wstr, Env.stepCall, stepBracket,
      errorProtocol, crashReport, Step.label, Step.index, List.cons_append, p0, p1]
    refine ⟨?_, fun hexc => ?_⟩
    · repeat (first
        | exact (List.prefix_append [_, _, _] _).isInfix
        | apply List.infix_cons)
    · simp only [hexc, if_true, stepCallCount, Call.isStepCall, if_false, Bool.false_eq_true]
      refine ⟨trivial, trivial, fun _ => ?_, fun h => by simp at h⟩
      repeat (first | exact List.suffix_refl _ | apply suffix_cons_of)
  | readConfig =>
    have p0 := hprev Step.preInitialize (by decide)
    have p1 := hprev Step.setHome (by decide)
    have p2 := hprev Step.setRunModule (by decide)
    simp only [Main, Run.bind_assoc, Run.pure_bind, exit_bind,
      Py_ExitStatusException_bind, ite_bind,
      LogWriter.Write, LogWriter.WriteLine, LogWriter.Flush, LogWriter.StartStdErrCapture,
      LogWriter.StopStdErrCapture, CrashDialogWriter.Write, ExitStatusExceptionHandler.Handle,
      Console.Write]
    simp only [emit_bind_trace, emit_bind_result, ite_trace, ite_result, pure_trace,
      exit_trace, Py_ExitStatusException_trace, Py_ExitStatusException_result,
      List.append_eq, List.nil_append, h1, h2, h3, h4, h5, h6, h7, ne_eq, not_true_eq_false,
      if_false, Bool.false_eq_true, buildArgv_eq, wstr, Env.stepCall, stepBracket,
      errorProtocol, crashReport, Step.label, Step.index, List.cons_append, p0, p1, p2]
    refine ⟨?_, fun hexc => ?_⟩
    · repeat (first
        | exact (List.prefix_append [_, _, _] _).isInfix
        | apply List.infix_cons)
    · simp only [hexc, if_true, stepCallCount, Call.isStepCall, if_false, Bool.false_eq_true]
      refine ⟨trivial, trivial, fun _ => ?_, fun h => by simp at h⟩
      repeat (first | exact List.suffix_refl _ | apply suffix_cons_of)
  | appendZip =>
    have p0 := hprev Step.preInitialize (by decide)
    have p1 := hprev Step.setHome (by decide)
    have p2 := hprev Step.setRunModule (by decide)
    have p3 := hprev Step.readConfig (by decide)
    simp only [Main, Run.bind_assoc, Run.pure_bind, exit_bind,
      Py_ExitStatusException_bind, ite_bind,
      LogWriter.Write, LogWriter.WriteLine, LogWriter.Flush, LogWriter.StartStdErrCapture,
      LogWriter.StopStdErrCapture, CrashDialogWriter.Write, ExitStatusExceptionHandler.Handle,
      Console.Write]
    simp only [emit_bind_trace, emit_bind_result, ite_trace, ite_result, pure_trace,
      exit_trace, Py_ExitStatusException_trace, Py_ExitStatusException_result,
      List.append_eq, List.nil_append, h1, h2, h3, h4, h5, h6, h7, ne_eq, not_true_eq_false,
      if_false, Bool.false_eq_true, buildArgv_eq, wstr, Env.stepCall, stepBracket,
      errorProtocol, crashReport, Step.label, Step.index, List.cons_append, p0, p1, p2, p3]
    refine ⟨?_, fun hexc => ?_⟩
    · repeat (first
        | exact (List.prefix_append [_, _, _] _).isInfix
        | apply List.infix_cons)
    · simp only [hexc, if_true, stepCallCount, Call.isStepCall, if_false, Bool.false_eq_true]
      refine ⟨trivial, trivial, fun _ => ?_, fun h => by simp at h⟩
      repeat (first | exact List.suffix_refl _ | apply suffix_cons_of)
  | appendHome =>
    have p0 := hprev Step.preInitialize (by decide)
    have p1 := hprev Step.setHome (by decide)
    have p2 := hprev Step.setRunModule (by decide)
    have p3 := hprev Step.readConfig (by decide)
    have p4 := hprev Step.appendZip (by decide)
    simp only [Main, Run.bind_assoc, Run.pure_bind, exit_bind,
      Py_ExitStatusException_bind, ite_bind,
      LogWriter.Write, LogWriter.WriteLine, LogWriter.Flush, LogWriter.StartStdErrCapture,
      LogWriter.StopStdErrCapture, CrashDialogWriter.Write, ExitStatusExceptionHandler.Handle,
      Console.Write]
    simp only [emit_bind_trace, emit_bind_result, ite_trace, ite_result, pure_trace,
      exit_trace, Py_ExitStatusException_trace, Py_ExitStatusException_result,
      List.append_eq, List.nil_append, h1, h2, h3, h4, h5, h6, h7, ne_eq, not_true_eq_false,
      if_false, Bool.false_eq_true, buildArgv_eq, wstr, Env.stepCall, stepBracket,
      errorProtocol, crashReport, Step.label, Step.index, List.cons_append, p0, p1, p2, p3, p4]
    refine ⟨?_, fun hexc => ?_⟩
    · repeat (first
        | exact (List.prefix_append [_, _, _] _).isInfix
        | apply List.infix_cons)
    · simp only [hexc, if_true, stepCallCount, Call.isStepCall, if_false, Bool.false_eq_true]
      refine ⟨trivial, trivial, fun _ => ?_, fun h => by simp at h⟩
      repeat (first | exact List.suffix_refl _ | apply suffix_cons_of)
  | appendAppPackages =>
    have p0 := hprev Step.preInitialize (by decide)
    have p1 := hprev Step.setHome (by decide)
    have p2 := hprev Step.setRunModule (by decide)
    have p3 := hprev Step.readConfig (by decide)
    have p4 := hprev Step.appendZip (by decide)
    have p5 := hprev Step.appendHome (by decide)
    simp only [Main, Run.bind_assoc, Run.pure_bind, exit_bind,
      Py_ExitStatusException_bind, ite_bind,
      LogWriter.Write, LogWriter.WriteLine, LogWriter.Flush, LogWriter.StartStdErrCapture,
      LogWriter.StopStdErrCapture, CrashDialogWriter.Write, ExitStatusExceptionHandler.Handle,
      Console.Write]
    simp only [emit_bind_trace, emit_bind_result, ite_trace, ite_result, pure_trace,
      exit_trace, Py_ExitStatusException_trace, Py_ExitStatusException_result,
      List.append_eq, List.nil_append, h1, h2, h3, h4, h5, h6, h7, ne_eq, not_true_eq_false,
      if_false, Bool.false_eq_true, buildArgv_eq, wstr, Env.stepCall, stepBracket,
      errorProtocol, crashReport, Step.label, Step.index, List.cons_append, p0, p1, p2, p3, p4, p5]
    refine ⟨?_, fun hexc => ?_⟩
    · repeat (first
        | exact (List.prefix_append [_, _, _] _).isInfix
        | apply List.infix_cons)
    · simp only [hexc, if_true, stepCallCount, Call.isStepCall, if_false, Bool.false_eq_true]
      refine ⟨trivial, trivial, fun _ => ?_, fun h => by simp at h⟩
      repeat (first | exact List.suffix_refl _ | apply suffix_cons_of)
  | appendApp =>
    have p0 := hprev Step.preInitialize (by decide)
    have p1 := hprev Step.setHome (by decide)
    have p2 := hprev Step.setRunModule (by decide)
    have p3 := hprev Step.readConfig (by decide)
    have p4 := hprev Step.appendZip (by decide)
    have p5 := hprev Step.appendHome (by decide)
    have p6 := hprev Step.appendAppPackages (by decide)
    simp only [Main, Run.bind_assoc, Run.pure_bind, exit_bind,
      Py_ExitStatusException_bind, ite_bind,
      LogWriter.Write, LogWriter.WriteLine, LogWriter.Flush, LogWriter.StartStdErrCapture,
      LogWriter.StopStdErrCapture, CrashDialogWriter.Write, ExitStatusExceptionHandler.Handle,
      Console.Write]
    simp only [emit_bind_trace, emit_bind_result, ite_trace, ite_result, pure_trace,
      exit_trace, Py_ExitStatusException_trace, Py_ExitStatusException_result,
      List.append_eq, List.nil_append, h1, h2, h3, h4, h5, h6, h7, ne_eq, not_true_eq_false,
      if_false, Bool.false_eq_true, buildArgv_eq, wstr, Env.stepCall, stepBracket,
      errorProtocol, crashReport, Step.label, Step.index, List.cons_append, p0, p1, p2, p3, p4, p5, p6]
    refine ⟨?_, fun hexc => ?_⟩
    · repeat (first
        | exact (List.prefix_append [_, _, _] _).isInfix
        | apply List.infix_cons)
    · simp only [hexc, if_true, stepCallCount, Call.isStepCall, if_false, Bool.false_eq_true]
      refine ⟨trivial, trivial, fun _ => ?_, fun h => by simp at h⟩
      repeat (first | exact List.suffix_refl _ | apply suffix_cons_of)
  | setArgv =>
    have p0 := hprev Step.preInitialize (by decide)
    have p1 := hprev Step.setHome (by decide)
    have p2 := hprev Step.setRunModule (by decide)
    have p3 := hprev Step.readConfig (by decide)
    have p4 := hprev Step.appendZip (by decide)
    have p5 := hprev Step.appendHome (by decide)
    have p6 := hprev Step.appendAppPackages (by decide)
    have p7 := hprev Step.appendApp (by decide)
    simp only [Main, Run.bind_assoc, Run.pure_bind, exit_bind,
      Py_ExitStatusException_bind, ite_bind,
      LogWriter.Write, LogWriter.WriteLine, LogWriter.Flush, LogWriter.StartStdErrCapture,
      LogWriter.StopStdErrCapture, CrashDialogWriter.Write, ExitStatusExceptionHandler.Handle,
      Console.Write]
    simp only [emit_bind_trace, emit_bind_result, ite_trace, ite_result, pure_trace,
      exit_trace, Py_ExitStatusException_trace, Py_ExitStatusException_result,
      List.append_eq, List.nil_append, h1, h2, h3, h4, h5, h6, h7, ne_eq, not_true_eq_false,
      if_false, Bool.false_eq_true, buildArgv_eq, wstr, Env.stepCall, stepBracket,
      errorProtocol, crashReport, Step.label, Step.index, List.cons_append, p0, p1, p2, p3, p4, p5, p6, p7]
    refine ⟨?_, fun hexc => ?_⟩
    · repeat (first
        | exact (List.prefix_append [_, _, _] _).isInfix
        | apply List.infix_cons)
    · simp only [hexc, if_true, stepCallCount, Call.isStepCall, if_false, Bool.false_eq_true]
      refine ⟨trivial, trivial, fun _ => ?_, fun h => by simp at h⟩
      repeat (first | exact List.suffix_refl _ | apply suffix_cons_of)
  | initRuntime =>
    have p0 := hprev Step.preInitialize (by decide)
    have p1 := hprev Step.setHome (by decide)
    have p2 := hprev Step.setRunModule (by decide)
    have p3 := hprev Step.readConfig (by decide)
    have p4 := hprev Step.appendZip (by decide)
    have p5 := hprev Step.appendHome (by decide)
    have p6 := hprev Step.appendAppPackages (by decide)
    have p7 := hprev Step.appendApp (by decide)
    have p8 := hprev Step.setArgv (by decide)
    simp only [Main, Run.bind_assoc, Run.pure_bind, exit_bind,
      Py_ExitStatusException_bind, ite_bind,
      LogWriter.Write, LogWriter.WriteLine, LogWriter.Flush, LogWriter.StartStdErrCapture,
      LogWriter.StopStdErrCapture, CrashDialogWriter.Write, ExitStatusExceptionHandler.Handle,
      Console.Write]
    simp only [emit_bind_trace, emit_bind_result, ite_trace, ite_result, pure_trace,
      exit_trace, Py_ExitStatusException_trace, Py_ExitStatusException_result,
      List.append_eq, List.nil_append, h1, h2, h3, h4, h5, h6, h7, ne_eq, not_true_eq_false,
      if_false, Bool.false_eq_true, buildArgv_eq, wstr, Env.stepCall, stepBracket,
      errorProtocol, crashReport, Step.label, Step.index, List.cons_append, p0, p1, p2, p3, p4, p5, p6, p7, p8]
    refine ⟨?_, fun hexc => ?_⟩
    · repeat (first
        | exact (List.prefix_append [_, _, _] _).isInfix
        | apply List.infix_cons)
    · simp only [hexc, if_true, stepCallCount, Call.isStepCall, if_false, Bool.false_eq_true]
      refine ⟨trivial, trivial, fun _ => ?_, fun h => by simp at h⟩
      repeat (first | exact List.suffix_refl _ | apply suffix_cons_of)

/-- C5 as stated fails at pre-initialization: when `Py_PreInitialize` returns an error status
the run ends through `Py_ExitStatusException`, but the configuration is never released, only
the capture of the bracket is ever started, and the run does not end with the error protocol
of the other steps. -/
theorem uniform_error_protocol_counterexample :
    PyStatus_Exception (preInitFailsEnv.status Step.preInitialize) = true ∧
    (Main preInitFailsEnv []).result =
      Except.error (Stop.Py_ExitStatusException (preInitFailsEnv.status Step.preInitialize)) ∧
    Event.call Call.PyConfig_Clear ∉ (Main preInitFailsEnv []).trace ∧
    (Main preInitFailsEnv []).trace.count Event.StartStdErrCapture = 1 ∧
    ¬ (errorProtocol Step.preInitialize.label (preInitFailsEnv.status Step.preInitialize)
        preInitFailsEnv.app.current_log_name <:+ (Main preInitFailsEnv []).trace) := by
  decide

/-- C5, amended, on the sample environment whose call setting the home directory fails. -/
theorem uniform_error_protocol_witness :
    stepBracket (homeFailsEnv.stepCall [] Step.setHome) <:+: (Main homeFailsEnv []).trace ∧
    (PyStatus_Exception (homeFailsEnv.status Step.setHome) = true →
      (Main homeFailsEnv []).result =
        Except.error (Stop.Py_ExitStatusException (homeFailsEnv.status Step.setHome)) ∧
      stepCallCount (Main homeFailsEnv []).trace = Step.setHome.index + 1 ∧
      (Step.setHome ≠ Step.preInitialize →
        (stepBracket (homeFailsEnv.stepCall [] Step.setHome) ++
          errorProtocol Step.setHome.label (homeFailsEnv.status Step.setHome)
            homeFailsEnv.app.current_log_name)
          <:+ (Main homeFailsEnv []).trace) ∧
      (Step.setHome = Step.preInitialize →
        (stepBracket (homeFailsEnv.stepCall [] Step.setHome) ++
          crashReport Step.setHome.label ++
          crashReport ("See " ++ homeFailsEnv.app.current_log_name ++ "\n"))
          <:+: (Main homeFailsEnv []).trace ∧
        Event.call Call.PyConfig_Clear ∉ (Main homeFailsEnv []).trace)) :=
  uniform_error_protocol homeFailsEnv [] Step.setHome
    ⟨fun _ => rfl, fun _ => rfl, fun _ => rfl, fun _ => rfl, rfl, rfl, rfl⟩
    (fun t h => by cases t <;> first | rfl | exact absurd h (by decide))

/-- A checked event sequence has no log operation inside a capture window. -/
theorem logsOutsideCapture_sound (pre : List Event) : ∀ (b : Bool) (t post : List Event)
    (e : Event), logsOutsideCapture b t = true → t = pre ++ e :: post → e.isLogOp = true →
    captureActive b pre = false := by
  induction pre with
  | nil =>
    intro b t post e hcheck ht he
    subst ht
    cases e <;> simp_all [logsOutsideCapture, Event.isLogOp, captureActive]
  | cons x pre ih =>
    intro b t post e hcheck ht he
    subst ht
    cases x with
    | StartStdErrCapture =>
      exact ih true _ post e (by simpa [logsOutsideCapture] using hcheck) rfl he
    | StopStdErrCapture =>
      exact ih false _ post e (by simpa [logsOutsideCapture] using hcheck) rfl he
    | Write m =>
      simp only [List.cons_append, logsOutsideCapture, Bool.and_eq_true] at hcheck
      exact ih b _ post e hcheck.2 rfl he
    | WriteLine m =>
      simp only [List.cons_append, logsOutsideCapture, Bool.and_eq_true] at hcheck
      exact ih b _ post e hcheck.2 rfl he
    | Flush =>
      simp only [List.cons_append, logsOutsideCapture, Bool.and_eq_true] at hcheck
      exact ih b _ post e hcheck.2 rfl he
    | ConsoleWrite m =>
      simp only [List.cons_append, logsOutsideCapture, Bool.and_eq_true] at hcheck
      exact ih b _ post e hcheck.2 rfl he
    | call c =>
      simp only [List.cons_append, logsOutsideCapture, Bool.and_eq_true] at hcheck
      exact ih b _ post e hcheck.2 rfl he

/-- C6 (capture pairing invariant): on every path of `Main` (whatever the bootstrap calls, the
capture toggles and the module do), whenever a normal log operation (`Write`, `WriteLine`,
`Flush`, also through `CrashDialogWriter::Write`) is performed, no capture is active: the
events before it do not end inside a window opened by `StartStdErrCapture` and not yet closed
by `StopStdErrCapture`. -/
theorem capture_pairing_invariant (env : Env) (args : List String)
    (pre post : List Event) (e : Event)
    (htrace : (Main env args).trace = pre ++ e :: post) (he : e.isLogOp = true) :
    captureActive false pre = false :=
  logsOutsideCapture_sound pre false _ post e (Main_logsOutsideCapture env args) htrace he

/-- C6 on the sample environment whose call setting the home directory fails: the first report
of the status handler comes after two closed capture windows. -/
theorem capture_pairing_invariant_witness :
    (Main homeFailsEnv []).trace =
      (Main homeFailsEnv []).trace.take 10 ++
        Event.Write "Unable to set PYTHONHOME:\n\tPyConfig_SetString: no memory\n" ::
        (Main homeFailsEnv []).trace.drop 11 ∧
    captureActive false ((Main homeFailsEnv []).trace.take 10) = false :=
  ⟨by decide,
   capture_pairing_invariant homeFailsEnv [] ((Main homeFailsEnv []).trace.take 10)
    ((Main homeFailsEnv []).trace.drop 11)
    (Event.Write "Unable to set PYTHONHOME:\n\tPyConfig_SetString: no memory\n")
    (by decide) rfl⟩

/-- C7 as stated fails: when the call setting the home directory returns an error status, the
status handler starts a capture that is never stopped; three captures are started, two are
stopped, and one is active when the process ends. -/
theorem capture_balance_counterexample :
    (Main homeFailsEnv []).result =
      Except.error (Stop.Py_ExitStatusException (homeFailsEnv.status Step.setHome)) ∧
    (Main homeFailsEnv []).trace.count Event.StartStdErrCapture = 3 ∧
    (Main homeFailsEnv []).trace.count Event.StopStdErrCapture = 2 ∧
    captureActive false (Main homeFailsEnv []).trace = true := by
  decide

/-- C7, amended (capture balance): on every path of `Main` capture starts and stops alternate
(a start only when no capture is active, a stop only when one is); and when the capture
toggles themselves succeed, a capture is active at the end of the run exactly when the run
ends in the status handler, that is, when pre-initialization succeeded and a later bootstrap
call returned an error or exit status. On every other path every start has been matched by
its stop. -/
theorem capture_balance (env : Env) (args : List String) :
    capturesAlternate false (Main env args).trace = true ∧
    (env.capturesSucceed →
      captureActive false (Main env args).trace = env.handlerReached) :=
  ⟨Main_capturesAlternate env args, Main_captureActive env args⟩

/-- C7, amended, on the sample environment in which everything succeeds: no capture is active
at the end. -/
theorem capture_balance_witness :
    capturesAlternate false (Main demoEnv []).trace = true ∧
    captureActive false (Main demoEnv []).trace = false :=
  ⟨(capture_balance demoEnv []).1,
   (capture_balance demoEnv []).2
    ⟨fun _ => rfl, fun _ => rfl, fun _ => rfl, fun _ => rfl, rfl, rfl, rfl⟩⟩

/-! ## Theorems: the replacement scan -/

theorem replaceFrom_skip (old new : List Char) (s : List Char) : ∀ k,
    replaceFrom old new k s = replaceFrom old new 0 (s.drop k) := by
  induction s with
  | nil => intro k; cases k <;> simp [replaceFrom]
  | cons c cs ih =>
    intro k
    cases k with
    | zero => simp
    | succ k => simp [replaceFrom, ih k]

theorem intercalate_cons_cons (sep p q : List Char) (rest : List (List Char)) :
    List.intercalate sep (p :: q :: rest) = p ++ sep ++ List.intercalate sep (q :: rest) := by
  simp [List.intercalate, List.intersperse]

/-- The scan deletes occurrences between fragments none of which contains the pattern. -/
theorem replaceFrom_fragments (old : List Char) (hold : old ≠ []) (n : Nat) :
    ∀ s : List Char, s.length ≤ n →
    ∃ pieces : List (List Char), pieces ≠ [] ∧ s = List.intercalate old pieces ∧
      replaceFrom old [] 0 s = pieces.flatten ∧ ∀ p ∈ pieces, ¬ old <:+: p := by
  induction n with
  | zero =>
    intro s hs
    have : s = [] := List.eq_nil_of_length_eq_zero (by omega)
    subst this
    refine ⟨[[]], by simp, by simp [List.intercalate, List.intersperse], by simp [replaceFrom], ?_⟩
    intro p hp
    simp only [List.mem_singleton] at hp
    subst hp
    simpa using hold
  | succ n ih =>
    intro s hs
    cases s with
    | nil =>
      refine ⟨[[]], by simp, by simp [List.intercalate, List.intersperse],
        by simp [replaceFrom], ?_⟩
      intro p hp
      simp only [List.mem_singleton] at hp
      subst hp
      simpa using hold
    | cons c cs =>
      by_cases hpre : old.isPrefixOf (c :: cs) = true
      · have hpre2 : old <+: c :: cs := List.isPrefixOf_iff_prefix.1 hpre
        obtain ⟨rest, hrest⟩ := hpre2
        have holdlen : 0 < old.length := List.length_pos.2 hold
        have hlen : rest.length ≤ n := by
          have := congrArg List.length hrest
          simp only [List.length_append, List.length_cons] at this
          simp only [List.length_cons] at hs
          omega
        obtain ⟨pieces, hne, hs1, hrep, hfree⟩ := ih rest hlen
        have hdrop : cs.drop (old.length - 1) = rest := by
          have h1 : (c :: cs).drop old.length = rest := by
            rw [← hrest]
            simp
          have h2 : old.length = (old.length - 1) + 1 := by omega
          rw [h2, List.drop_succ_cons] at h1
          exact h1
        refine ⟨[] :: pieces, by simp, ?_, ?_, ?_⟩
        · cases pieces with
          | nil => exact absurd rfl hne
          | cons q qs =>
            rw [intercalate_cons_cons, ← hs1, ← hrest]
            simp
        · simp only [replaceFrom, hpre, if_true, List.nil_append, List.flatten_cons]
          rw [replaceFrom_skip, hdrop, hrep]
        · intro p hp
          simp only [List.mem_cons] at hp
          rcases hp with rfl | hp
          · simpa using hold
          · exact hfree p hp
      · have hlen : cs.length ≤ n := by
          simp only [List.length_cons] at hs
          omega
        obtain ⟨pieces, hne, hs1, hrep, hfree⟩ := ih cs hlen
        cases pieces with
        | nil => exact absurd rfl hne
        | cons q qs =>
          refine ⟨(c :: q) :: qs, by simp, ?_, ?_, ?_⟩
          · cases qs with
            | nil =>
              simp only [List.intercalate, List.intersperse, List.flatten_cons,
                List.flatten_nil, List.append_nil] at hs1 ⊢
              rw [hs1]
            | cons r rs =>
              rw [intercalate_cons_cons] at hs1 ⊢
              rw [hs1]
              simp
          · simp only [replaceFrom, hpre, Bool.false_eq_true, if_false, List.flatten_cons,
              List.cons_append]
            rw [hrep]
            simp
          · intro p hp
            simp only [List.mem_cons] at hp
            rcases hp with rfl | hp
            · intro hinf
              rcases List.infix_cons_iff.1 hinf with hp2 | hp2
              · apply hpre
                apply List.isPrefixOf_iff_prefix.2
                obtain ⟨t, ht⟩ := hp2
                cases qs with
                | nil =>
                  simp only [List.intercalate, List.intersperse, List.flatten_cons,
                    List.flatten_nil, List.append_nil] at hs1
                  exact ⟨t, by rw [ht, hs1]⟩
                | cons r rs =>
                  rw [intercalate_cons_cons] at hs1
                  refine ⟨t ++ (old ++ List.intercalate old (r :: rs)), ?_⟩
                  rw [hs1, ← List.append_assoc, ht]
                  simp
              · exact hfree q (by simp) hp2
            · exact hfree p (by simp [hp])

/-! ## The exit code -/

/-- When the bootstrap succeeds, `Main` ends the way the module runner ends. -/
theorem Main_result_of_bootstrap (env : Env) (args : List String)
    (hc : env.capturesSucceed) (hs : env.bootstrapSucceeds) :
    (Main env args).result =
      (Main.run env (LogWriter.mk env.app.current_log_name)
        (CrashDialogWriter.mk (LogWriter.mk env.app.current_log_name))
        (match env.BRIEFCASE_MAIN_MODULE with
         | some app_module_str => app_module_str
         | none => env.app.InternalName)
        (wstr (match env.BRIEFCASE_MAIN_MODULE with
         | some app_module_str => app_module_str
         | none => env.app.InternalName))).result := by
  obtain ⟨h1, h2, h3, h4, h5, h6, h7⟩ := hc
  simp only [Main, Run.bind_assoc, Run.pure_bind, exit_bind,
    Py_ExitStatusException_bind, ite_bind,
    LogWriter.Write, LogWriter.WriteLine, LogWriter.Flush, LogWriter.StartStdErrCapture,
    LogWriter.StopStdErrCapture, CrashDialogWriter.Write, ExitStatusExceptionHandler.Handle,
    Console.Write]
  simp only [emit_bind_result, ite_result, pure_result,
    h1, h2, h3, h4, h5, h6, h7, hs _, ne_eq, not_true_eq_false, if_false,
    Bool.false_eq_true]
  try rfl

/-- The module runner returns 0 when the module call returns a result. -/
theorem run_result_returned (env : Env) (log : LogWriter) (crash_dialog : CrashDialogWriter)
    (n s : String)
    (hsetup : env.runpy_module = true ∧ env.module_attr = true ∧ env.app_module = true ∧
      env.method_args = true)
    (hres : env.result = CallResult.returned) :
    (Main.run env log crash_dialog n s).result = Except.ok 0 := by
  obtain ⟨s1, s2, s3, s4⟩ := hsetup
  simp only [Main.run, PyObject_Call, hres, s1, s2, s3, s4,
    Run.bind_assoc, Run.pure_bind, exit_bind, throw_bind, ite_bind,
    LogWriter.Write, LogWriter.WriteLine, LogWriter.Flush, CrashDialogWriter.Write,
    Console.Write, tryCatch_emit_bind, tryCatch_ite, tryCatch_pure, tryCatch_exit,
    tryCatch_throw, Bool.not_true, Bool.not_false, Bool.false_eq_true, if_false, if_true,
    emit_bind_result, ite_result, pure_result, exit_result]

/-- The result of the module runner for a raised exception with a traceback: 0 through the
ordinary shutdown when the resolved code is 0; otherwise the process exits with the resolved
code when `format_traceback` returns, and the runner returns -7 when it raises. -/
theorem run_result_raised (env : Env) (log : LogWriter) (crash_dialog : CrashDialogWriter)
    (n s : String) (tb : TbObject)
    (hsetup : env.runpy_module = true ∧ env.module_attr = true ∧ env.app_module = true ∧
      env.method_args = true)
    (hres : env.result = CallResult.raised) (htb : env.exc_traceback = some tb) :
    (env.resolvedCode = 0 → (Main.run env log crash_dialog n s).result = Except.ok 0) ∧
    (env.resolvedCode ≠ 0 → ∀ str, (format_traceback env tb).result = Except.ok str →
      (Main.run env log crash_dialog n s).result =
        Except.error (Stop.exit env.resolvedCode)) ∧
    (env.resolvedCode ≠ 0 → ∀ e,
      (format_traceback env tb).result = Except.error (Stop.exception e) →
      (Main.run env log crash_dialog n s).result = Except.ok (-7)) := by
  obtain ⟨s1, s2, s3, s4⟩ := hsetup
  have hmain : (Main.run env log crash_dialog n s).result =
      if env.resolvedCode ≠ 0 then
        match (format_traceback env tb).result with
        | Except.ok _ => Except.error (Stop.exit env.resolvedCode)
        | Except.error (Stop.exception _) => Except.ok (-7)
        | Except.error stop => Except.error stop
      else Except.ok 0 := by
    rcases hse : env.is_SystemExit with _ | _ <;>
    rcases hcode : env.systemExit_code with _ | code <;>
    rcases format_traceback_cases env tb with ⟨str, hf⟩ | ⟨str, hf⟩ | ⟨e, hf⟩ <;>
    simp only [Main.run, PyObject_Call, hf, hres, htb, hcode, hse, s1, s2, s3, s4,
      Env.resolvedCode,
      Run.bind_assoc, Run.pure_bind, exit_bind, throw_bind, ite_bind,
      LogWriter.Write, LogWriter.WriteLine, LogWriter.Flush, CrashDialogWriter.Write,
      Console.Write, tryCatch_emit_bind, tryCatch_ite, tryCatch_pure, tryCatch_exit,
      tryCatch_throw, Bool.not_true, Bool.not_false, Bool.false_eq_true, if_false, if_true,
      emit_bind_result, ite_result, pure_result, exit_result, throw_result] <;>
    first
      | rfl
      | (split <;> first | rfl | simp_all)
  refine ⟨fun h0 => ?_, fun hne str hstr => ?_, fun hne e he => ?_⟩
  · rw [hmain, if_neg (not_not.2 h0)]
  · rw [hmain, if_pos hne, hstr]
  · rw [hmain, if_pos hne, he]

/-- A call of `format_traceback` returns a string or raises a managed exception. -/
theorem format_traceback_result (env : Env) (tb : TbObject) :
    (∃ str, (format_traceback env tb).result = Except.ok str) ∨
    (∃ e, (format_traceback env tb).result = Except.error (Stop.exception e)) := by
  rcases format_traceback_cases env tb with ⟨str, hf⟩ | ⟨str, hf⟩ | ⟨e, hf⟩
  · exact Or.inl ⟨str, by rw [hf]; rfl⟩
  · exact Or.inl ⟨str, by rw [hf]; rfl⟩
  · exact Or.inr ⟨e, by rw [hf]; rfl⟩

/-- The exit code of `Main` for every outcome of the module call with a traceback available,
the capture toggles, the bootstrap calls and the set-up of the module call succeeding: 0 when
the call returns a result or the resolved code is 0; otherwise `exit` with the resolved code
(the value `PyLong_AsLong` gives for the code of a `SystemExit`, -10 when the code cannot be
read, -6 for any other exception) when `format_traceback` returns a string, and -7 through the
ordinary shutdown when `format_traceback` raises a managed exception. -/
theorem Main_exit_code (env : Env) (args : List String)
    (hc : env.capturesSucceed) (hs : env.bootstrapSucceeds)
    (hsetup : env.runpy_module = true ∧ env.module_attr = true ∧ env.app_module = true ∧
      env.method_args = true) :
    (env.result = CallResult.returned → (Main env args).result = Except.ok 0) ∧
    (∀ tb, env.result = CallResult.raised → env.exc_traceback = some tb →
      (env.resolvedCode = 0 → (Main env args).result = Except.ok 0) ∧
      (env.resolvedCode ≠ 0 → ∀ str, (format_traceback env tb).result = Except.ok str →
        (Main env args).result = Except.error (Stop.exit env.resolvedCode)) ∧
      (env.resolvedCode ≠ 0 → ∀ e,
        (format_traceback env tb).result = Except.error (Stop.exception e) →
        (Main env args).result = Except.ok (-7))) := by
  rw [Main_result_of_bootstrap env args hc hs]
  exact ⟨fun hres => run_result_returned env _ _ _ _ hsetup hres,
    fun tb hres htb => run_result_raised env _ _ _ _ tb hsetup hres htb⟩

/-! ## Claims about the exit code -/

set_option maxRecDepth 100000 in
/-- C1 fails on the code for a module that raises `ValueError('\udc80')`: every bootstrap step
succeeds, the module raises an ordinary error (no `SystemExit`) and a traceback is available,
so the claim gives the exit code -6. The formatted traceback holds a lone surrogate,
`PyUnicode_AsUTF8AndSize` returns `NULL`, `GetString` raises on it inside the `try` block of
`Main`, the `catch` reports a runtime error and `Main` returns -7 through `Py_Finalize`,
without the error state restored. The same error with a plain message exits with -6. -/
theorem exit_code_unencodable_traceback :
    surrogateEnv.result = CallResult.raised ∧
    surrogateEnv.exc_traceback ≠ none ∧
    surrogateEnv.is_SystemExit = false ∧
    (Main surrogateEnv []).result = Except.ok (-7) ∧
    Event.call Call.Py_Finalize ∈ (Main surrogateEnv []).trace ∧
    Event.call Call.PyErr_Restore ∉ (Main surrogateEnv []).trace ∧
    (Main valueErrorEnv []).result = Except.error (Stop.exit (-6)) := by
  decide

/-! ## Theorems: the text of the traceback -/

theorem utf8_append (l r : PyUnicode) (a b : List Char)
    (hl : PyUnicode_AsUTF8AndSize l = some a) (hr : PyUnicode_AsUTF8AndSize r = some b) :
    PyUnicode_AsUTF8AndSize (l ++ r) = some (a ++ b) := by
  induction l generalizing a with
  | nil =>
    simp only [PyUnicode_AsUTF8AndSize, Option.some.injEq] at hl
    subst hl
    simpa using hr
  | cons x xs ih =>
    cases x with
    | surrogate code => simp [PyUnicode_AsUTF8AndSize] at hl
    | char c =>
      simp only [PyUnicode_AsUTF8AndSize, Option.map_eq_some'] at hl
      obtain ⟨cs, hcs, rfl⟩ := hl
      simp [PyUnicode_AsUTF8AndSize, ih cs hcs]

theorem decodeLines_join (list : List PyUnicode) : ∀ lines : List String,
    decodeLines list = some lines →
    PyUnicode_AsUTF8AndSize (PyUnicode_Join list) = some (String.join lines).data := by
  induction list with
  | nil =>
    intro lines h
    simp only [decodeLines, Option.some.injEq] at h
    subst h
    rfl
  | cons l ls ih =>
    intro lines h
    simp only [decodeLines] at h
    split at h
    · next cs rest hcs hrest =>
      simp only [Option.some.injEq] at h
      subst h
      have h2 := ih rest hrest
      simp only [PyUnicode_Join] at h2 ⊢
      rw [List.flatten_cons, utf8_append l ls.flatten cs _ hcs h2]
      simp [String.data_join]
    · cases h

theorem utf8_ofString (s : String) :
    PyUnicode_AsUTF8AndSize (PyUnicode.ofString s) = some s.data := by
  unfold PyUnicode.ofString
  induction s.data with
  | nil => rfl
  | cons c cs ih => simp [PyUnicode_AsUTF8AndSize, ih]

/-- What the formatter returned when its lines, as text, are `lines`. -/
theorem format_exception_list_of_lines (env : Env) (t : TbObject) (lines : List String)
    (h : env.format_exception t = some lines) :
    ∃ list, env.format_exception_list t = some list ∧
      PyUnicode_AsUTF8AndSize (PyUnicode_Join list) = some (String.join lines).data := by
  unfold Env.format_exception at h
  split at h
  · cases h
  · next list hlist => exact ⟨list, hlist, decodeLines_join list lines h⟩

/-! ## Claims about the traceback -/

/-- C4 as stated fails: with the installation path `C:\App` and a traceback text holding
`C:\C:\AppApp`, `format_traceback` succeeds and the string it returns still contains the
installation path. -/
theorem traceback_redaction_counterexample :
    redactionEnv.StartupPath ≠ "" ∧
    (format_traceback redactionEnv TbObject.None).result =
      Except.ok "ValueError: bad path C:\\App\n" ∧
    redactionEnv.StartupPath.data <:+: ("ValueError: bad path C:\\App\n" : String).data := by
  decide

/-- C4, amended (traceback redaction): when the formatter is available and returns the lines
of the traceback and the installation path is non-empty, `format_traceback` returns the text
with the occurrences of the installation path, found from left to right, deleted: the text
is a sequence of fragments with the path between consecutive ones, the returned string is
the fragments put together, and no fragment contains the path. (The path can appear in the
returned string only across the junction of two fragments.) -/
theorem traceback_redaction (env : Env) (tb : TbObject) (lines : List String)
    (hmod : env.traceback_module = true) (hcall : env.format_exception_callable = true)
    (hfmt : ∀ t, env.format_exception t = some lines) (hpath : env.StartupPath ≠ "") :
    ∃ fragments : List (List Char), fragments ≠ [] ∧
      (String.join lines).data = List.intercalate env.StartupPath.data fragments ∧
      (format_traceback env tb).result = Except.ok (String.mk fragments.flatten) ∧
      ∀ f ∈ fragments, ¬ env.StartupPath.data <:+: f := by
  have hdata : env.StartupPath.data ≠ [] := by
    intro h
    apply hpath
    exact String.ext h
  obtain ⟨fragments, hne, htext, hrep, hfree⟩ :=
    replaceFrom_fragments env.StartupPath.data hdata _ (String.join lines).data (Nat.le_refl _)
  refine ⟨fragments, hne, htext, ?_, hfree⟩
  simp only [format_traceback, hmod, hcall, Bool.not_true, Bool.false_eq_true, if_false,
    if_true, emit_bind_result]
  generalize List.foldl _ tb (List.range 2) = t0
  obtain ⟨list, hlist, hbytes⟩ := format_exception_list_of_lines env t0 lines (hfmt t0)
  rw [hlist]
  simp only [hbytes, UTF8Encoding.GetString, String.Replace, hpath, if_false, ofExcept_ok,
    Run.pure_bind, pure_result]
  rw [← hrep]

/-- C4, amended, on the sample environment. -/
theorem traceback_redaction_witness :
    ∃ fragments : List (List Char), fragments ≠ [] ∧
      (String.join ["ValueError: bad path C:\\C:\\AppApp\n"]).data =
        List.intercalate redactionEnv.StartupPath.data fragments ∧
      (format_traceback redactionEnv TbObject.None).result =
        Except.ok (String.mk fragments.flatten) ∧
      ∀ f ∈ fragments, ¬ redactionEnv.StartupPath.data <:+: f :=
  traceback_redaction redactionEnv TbObject.None ["ValueError: bad path C:\\C:\\AppApp\n"]
    rfl rfl (fun _ => rfl) (by decide)

end Briefcase
